import Mathlib

/-!
Verification of the Cosimo goal-graph server.

The development shallowly embeds the repository's core: the envelope-encryption
scheme of `src/crypto.js` (duplicated inside `src/db.js`), the graph mutation
engine of `src/mcp.js` (`executeTool`), and the line-transport JSON-RPC
dispatcher of the stdio client.  JavaScript numbers that can become `NaN`
through `parseInt`/`Math.max` are modelled by an explicit `JNum` type; the
Node builtins the code calls (`JSON.stringify`/`JSON.parse`,
`crypto.pbkdf2Sync`, AES-256-GCM) are modelled as a bundle of abstract
primitives together with the functional laws the library documents, while
base64 (`Buffer.from(s, 'base64')` / `buf.toString('base64')`) is implemented
concretely and proved correct.
-/

namespace Cosimo

/-! ## JavaScript numbers: `parseInt`, `Math.max`, `NaN` -/

/-- Model of a JavaScript number as it is used by the id-allocation code:
either an integer or `NaN`. -/
inductive JNum where
  | nan : JNum
  | int : Int → JNum
deriving DecidableEq, Repr

/-- JavaScript `Math.max` on two values: `NaN` is absorbing. -/
def jsMax : JNum → JNum → JNum
  | JNum.nan, _ => JNum.nan
  | _, JNum.nan => JNum.nan
  | JNum.int a, JNum.int b => JNum.int (max a b)

/-- JavaScript `Math.max(...list)` for a nonempty argument list. -/
def jsMaxList : List JNum → JNum
  | [] => JNum.int 0
  | h :: t => t.foldl jsMax h

/-- JavaScript `+` on two values: `NaN` is absorbing. -/
def jsAdd : JNum → JNum → JNum
  | JNum.nan, _ => JNum.nan
  | _, JNum.nan => JNum.nan
  | JNum.int a, JNum.int b => JNum.int (a + b)

/-- The decimal digit character of a value below ten, as produced by
JavaScript number printing. -/
def digitChar (d : Nat) : Char :=
  Char.ofNat (48 + d % 10)

/-- Value of a decimal digit character, `none` for everything else. -/
def charDigitVal (c : Char) : Option Nat :=
  if '0' ≤ c ∧ c ≤ '9' then some (c.toNat - 48) else none

/-- Value of a hexadecimal digit character, `none` for everything else. -/
def hexDigitVal (c : Char) : Option Nat :=
  match charDigitVal c with
  | some d => some d
  | none =>
    if 'a' ≤ c ∧ c ≤ 'f' then some (c.toNat - 97 + 10)
    else if 'A' ≤ c ∧ c ≤ 'F' then some (c.toNat - 65 + 10)
    else none

/-- Decimal digit expansion with explicit fuel, so that the definition is
structurally recursive and computes inside the kernel.  The fuel is never
exhausted when it starts at the number itself. -/
def natDigitsF : Nat → Nat → List Char
  | 0, n => [digitChar n]
  | fuel + 1, n =>
    if n < 10 then [digitChar n]
    else natDigitsF fuel (n / 10) ++ [digitChar (n % 10)]

/-- Decimal digits of a natural number, most significant first
(the way JavaScript prints a nonnegative integer). -/
def natDigits (n : Nat) : List Char :=
  natDigitsF n n

/-- The digit expansion does not depend on the fuel, as long as the fuel
dominates the number. -/
theorem natDigitsF_irrel :
    ∀ (n fuel fuel' : Nat), n ≤ fuel → n ≤ fuel' →
      natDigitsF fuel n = natDigitsF fuel' n := by
  intro n
  induction n using Nat.strong_induction_on with
  | _ n ih =>
    intro fuel fuel' hf hf'
    match fuel, fuel' with
    | 0, 0 => rfl
    | 0, f' + 1 =>
      have : n = 0 := by omega
      subst this
      simp [natDigitsF]
    | f + 1, 0 =>
      have : n = 0 := by omega
      subst this
      simp [natDigitsF]
    | f + 1, f' + 1 =>
      by_cases h : n < 10
      · simp [natDigitsF, h]
      · rw [natDigitsF, natDigitsF, if_neg h, if_neg h,
          ih (n / 10) (Nat.div_lt_self (by omega) (by omega)) f f' (by omega) (by omega)]

/-- The defining recursion of `natDigits`, fuel hidden. -/
theorem natDigits_unfold (n : Nat) :
    natDigits n = if n < 10 then [digitChar n]
      else natDigits (n / 10) ++ [digitChar (n % 10)] := by
  by_cases h : n < 10
  · rw [if_pos h]
    cases hn : n with
    | zero => rfl
    | succ m =>
      rw [natDigits, natDigitsF, if_pos (hn ▸ h)]
  · rw [if_neg h]
    cases hn : n with
    | zero => omega
    | succ m =>
      rw [natDigits, natDigitsF, if_neg (hn ▸ h)]
      rw [natDigitsF_irrel ((m + 1) / 10) m ((m + 1) / 10) (by omega) (le_refl _)]
      rw [natDigits]

/-- Decimal rendering of a natural number. -/
def natString (n : Nat) : String :=
  String.mk (natDigits n)

/-- Rendering of a `JNum` by JavaScript string interpolation:
`NaN` prints as `"NaN"`, integers in decimal. -/
def jnumToString : JNum → String
  | JNum.nan => "NaN"
  | JNum.int i => if i < 0 then "-" ++ natString i.natAbs else natString i.toNat

/-- Accumulating value of a run of digits; stops at the first non-digit,
as `parseInt` does. -/
def runVal (dv : Char → Option Nat) (base : Nat) (acc : Nat) : List Char → Nat
  | [] => acc
  | c :: cs =>
    match dv c with
    | some d => runVal dv base (base * acc + d) cs
    | none => acc

/-- Longest digit run at the head of the list, `NaN` when there is none
(the core of ECMAScript `parseInt`). -/
def parseRun (dv : Char → Option Nat) (base : Nat) : List Char → JNum
  | [] => JNum.nan
  | c :: cs =>
    match dv c with
    | some d => JNum.int (Int.ofNat (runVal dv base d cs))
    | none => JNum.nan

/-- Whitespace characters skipped by `parseInt`. -/
def isWsChar (c : Char) : Bool :=
  c = ' ' || c = '\t' || c = '\n' || c = '\r'

/-- Unsigned part of `parseInt`: a `0x`/`0X` prefix switches to
hexadecimal, otherwise the longest decimal digit run is taken. -/
def parseUnsignedJs : List Char → JNum
  | '0' :: 'x' :: rest => parseRun hexDigitVal 16 rest
  | '0' :: 'X' :: rest => parseRun hexDigitVal 16 rest
  | l => parseRun charDigitVal 10 l

/-- Negation of a `JNum`. -/
def jnumNeg : JNum → JNum
  | JNum.nan => JNum.nan
  | JNum.int i => JNum.int (-i)

/-- ECMAScript `parseInt(string)` with no radix argument, on the character
list of the string: skip whitespace, optional sign, optional hex prefix,
longest digit run; `NaN` when no digit is found. -/
def parseIntChars (l : List Char) : JNum :=
  match l.dropWhile isWsChar with
  | '-' :: rest => jnumNeg (parseUnsignedJs rest)
  | '+' :: rest => parseUnsignedJs rest
  | l1 => parseUnsignedJs l1

/-- JavaScript `String.prototype.split` with a single-character separator. -/
def jsSplit (sep : Char) : List Char → List (List Char)
  | [] => [[]]
  | c :: cs =>
    if c = sep then [] :: jsSplit sep cs
    else
      match jsSplit sep cs with
      | [] => [[c]]
      | g :: gs => (c :: g) :: gs

/-- The numeric-suffix extraction the id allocator performs:
`parseInt(id.split('-')[1])`.  Indexing past the end of the split gives
`undefined`, and `parseInt(undefined)` is `NaN`. -/
def parseSuffix (id : String) : JNum :=
  match (jsSplit '-' id.data).get? 1 with
  | some seg => parseIntChars seg
  | none => JNum.nan

/-! ## Base64 (`Buffer.from(_, 'base64')` and `buf.toString('base64')`) -/

/-- Character of a six-bit value in the standard base64 alphabet. -/
def b64Char (n : Nat) : Char :=
  if n < 26 then Char.ofNat (65 + n)
  else if n < 52 then Char.ofNat (97 + (n - 26))
  else if n < 62 then Char.ofNat (48 + (n - 52))
  else if n = 62 then '+'
  else '/'

/-- Six-bit value of a base64 alphabet character; Node also accepts the
base64url variants `-` and `_`.  Everything else (including padding and
whitespace) is ignored by Node's lenient decoder. -/
def b64CharVal (c : Char) : Option Nat :=
  if 'A' ≤ c ∧ c ≤ 'Z' then some (c.toNat - 65)
  else if 'a' ≤ c ∧ c ≤ 'z' then some (c.toNat - 97 + 26)
  else if '0' ≤ c ∧ c ≤ '9' then some (c.toNat - 48 + 52)
  else if c = '+' then some 62
  else if c = '/' then some 63
  else if c = '-' then some 62
  else if c = '_' then some 63
  else none

/-- Base64 encoding of a byte list, three bytes to four characters, with
`=` padding, as `buf.toString('base64')` produces. -/
def b64EncodeBytes : List Nat → List Char
  | [] => []
  | [b0] => [b64Char (b0 / 4), b64Char (b0 % 4 * 16), '=', '=']
  | [b0, b1] => [b64Char (b0 / 4), b64Char (b0 % 4 * 16 + b1 / 16), b64Char (b1 % 16 * 4), '=']
  | b0 :: b1 :: b2 :: rest =>
    b64Char (b0 / 4) :: b64Char (b0 % 4 * 16 + b1 / 16) ::
      b64Char (b1 % 16 * 4 + b2 / 64) :: b64Char (b2 % 64) :: b64EncodeBytes rest

/-- Base64 encoding as a string. -/
def b64Encode (bs : List Nat) : String :=
  String.mk (b64EncodeBytes bs)

/-- Byte reconstruction from a stream of six-bit values, four values to
three bytes, with the trailing partial group handled the way Node does. -/
def b64DecodeSix : List Nat → List Nat
  | v0 :: v1 :: v2 :: v3 :: rest =>
    (v0 * 4 + v1 / 16) :: (v1 % 16 * 16 + v2 / 4) :: (v2 % 4 * 64 + v3) :: b64DecodeSix rest
  | [v0, v1, v2] => [v0 * 4 + v1 / 16, v1 % 16 * 16 + v2 / 4]
  | [v0, v1] => [v0 * 4 + v1 / 16]
  | _ => []

/-- Node's lenient base64 decoder `Buffer.from(s, 'base64')`: characters
outside the alphabet are skipped, then six-bit values are regrouped into
bytes.  It never throws. -/
def nodeB64Decode (s : String) : List Nat :=
  b64DecodeSix (s.data.filterMap b64CharVal)

/-- Alphabet characters decode back to their six-bit value. -/
theorem b64CharVal_b64Char : ∀ v, v < 64 → b64CharVal (b64Char v) = some v := by
  decide

/-- Padding is skipped by the decoder. -/
theorem b64CharVal_pad : b64CharVal '=' = none := by
  decide

/-- Decoding inverts encoding on byte lists: the base64 round trip. -/
theorem b64_decode_encode : ∀ bs : List Nat, (∀ b ∈ bs, b < 256) →
    b64DecodeSix ((b64EncodeBytes bs).filterMap b64CharVal) = bs
  | [], _ => by simp [b64EncodeBytes, b64DecodeSix]
  | [b0], h => by
    have hb0 : b0 < 256 := h b0 (by simp)
    simp only [b64EncodeBytes, List.filterMap_cons, List.filterMap_nil,
      b64CharVal_b64Char _ (by omega : b0 / 4 < 64),
      b64CharVal_b64Char _ (by omega : b0 % 4 * 16 < 64), b64CharVal_pad]
    simp only [b64DecodeSix, List.cons.injEq, and_true]
    omega
  | [b0, b1], h => by
    have hb0 : b0 < 256 := h b0 (by simp)
    have hb1 : b1 < 256 := h b1 (by simp)
    simp only [b64EncodeBytes, List.filterMap_cons, List.filterMap_nil,
      b64CharVal_b64Char _ (by omega : b0 / 4 < 64),
      b64CharVal_b64Char _ (by omega : b0 % 4 * 16 + b1 / 16 < 64),
      b64CharVal_b64Char _ (by omega : b1 % 16 * 4 < 64), b64CharVal_pad]
    simp only [b64DecodeSix, List.cons.injEq, and_true]
    omega
  | b0 :: b1 :: b2 :: rest, h => by
    have hb0 : b0 < 256 := h b0 (by simp)
    have hb1 : b1 < 256 := h b1 (by simp)
    have hb2 : b2 < 256 := h b2 (by simp)
    have ih := b64_decode_encode rest (fun b hb => h b (by simp [hb]))
    simp only [b64EncodeBytes, List.filterMap_cons,
      b64CharVal_b64Char _ (by omega : b0 / 4 < 64),
      b64CharVal_b64Char _ (by omega : b0 % 4 * 16 + b1 / 16 < 64),
      b64CharVal_b64Char _ (by omega : b1 % 16 * 4 + b2 / 64 < 64),
      b64CharVal_b64Char _ (by omega : b2 % 64 < 64)]
    simp only [b64DecodeSix, ih, List.cons.injEq, and_true]
    refine ⟨by omega, by omega, by omega⟩

/-- The base64 round trip stated on the string produced by `b64Encode`. -/
theorem nodeB64Decode_b64Encode (bs : List Nat) (h : ∀ b ∈ bs, b < 256) :
    nodeB64Decode (b64Encode bs) = bs :=
  b64_decode_encode bs h

/-! ## Decimal printing parses back: `parseInt` inverts number rendering -/

/-- Every character printed for a natural number is a decimal digit. -/
theorem natDigits_digits (n : Nat) : ∀ c ∈ natDigits n, ∃ d, d < 10 ∧ c = digitChar d := by
  induction n using Nat.strong_induction_on with
  | _ n ih =>
    rw [natDigits_unfold n]
    by_cases h : n < 10
    · simp only [h, if_true, List.mem_singleton]
      intro c hc
      exact ⟨n, h, hc⟩
    · simp only [h, if_false, List.mem_append, List.mem_singleton]
      intro c hc
      rcases hc with hc | hc
      · exact ih (n / 10) (Nat.div_lt_self (by omega) (by omega)) c hc
      · exact ⟨n % 10, Nat.mod_lt _ (by omega), hc⟩

/-- Digit characters have their expected value. -/
theorem charDigitVal_digitChar : ∀ d, d < 10 → charDigitVal (digitChar d) = some d := by
  decide

/-- Digit characters are not whitespace. -/
theorem digitChar_not_ws : ∀ d, d < 10 → isWsChar (digitChar d) = false := by
  decide

/-- Digit characters are none of the characters `parseInt` treats specially. -/
theorem digitChar_not_special : ∀ d, d < 10 →
    digitChar d ≠ '-' ∧ digitChar d ≠ '+' ∧ digitChar d ≠ 'x' ∧ digitChar d ≠ 'X' := by
  decide

/-- The printed form of a natural number is never empty. -/
theorem natDigits_ne_nil (n : Nat) : natDigits n ≠ [] := by
  rw [natDigits_unfold n]
  by_cases h : n < 10 <;> simp [h]

/-- `runVal` distributes over an all-digit head segment. -/
theorem runVal_append (dv : Char → Option Nat) (base : Nat) :
    ∀ (l1 l2 : List Char) (a : Nat), (∀ c ∈ l1, (dv c).isSome) →
      runVal dv base a (l1 ++ l2) = runVal dv base (runVal dv base a l1) l2 := by
  intro l1
  induction l1 with
  | nil => intro l2 a _; simp [runVal]
  | cons c cs ih =>
    intro l2 a hall
    have hc : (dv c).isSome := hall c (by simp)
    rcases Option.isSome_iff_exists.mp hc with ⟨d, hd⟩
    simp only [List.cons_append, runVal, hd]
    exact ih l2 _ (fun x hx => hall x (by simp [hx]))

/-- Accumulating the digits of `n` after accumulator `a` gives
`a * 10 ^ (number of digits) + n`. -/
theorem runVal_natDigits (n : Nat) : ∀ a : Nat,
    runVal charDigitVal 10 a (natDigits n) = a * 10 ^ (natDigits n).length + n := by
  induction n using Nat.strong_induction_on with
  | _ n ih =>
    intro a
    rw [natDigits_unfold n]
    by_cases h : n < 10
    · simp only [h, if_true]
      simp [runVal, charDigitVal_digitChar n h]
      omega
    · simp only [h, if_false]
      have hdig : ∀ c ∈ natDigits (n / 10), (charDigitVal c).isSome := by
        intro c hc
        rcases natDigits_digits (n / 10) c hc with ⟨d, hd, rfl⟩
        simp [charDigitVal_digitChar d hd]
      rw [runVal_append charDigitVal 10 _ _ a hdig,
        ih (n / 10) (Nat.div_lt_self (by omega) (by omega)) a]
      simp [runVal, charDigitVal_digitChar (n % 10) (Nat.mod_lt _ (by omega))]
      have h10 : 10 * (n / 10) + n % 10 = n := by omega
      calc 10 * (a * 10 ^ (natDigits (n / 10)).length + n / 10) + n % 10
          = a * (10 ^ (natDigits (n / 10)).length * 10) + (10 * (n / 10) + n % 10) := by ring
        _ = a * 10 ^ ((natDigits (n / 10)).length + 1) + n := by rw [h10, pow_succ]

/-- A character of an all-digit list cannot be a fixed non-digit character. -/
theorem not_digit_mem (l : List Char) (h : ∀ c ∈ l, ∃ d, d < 10 ∧ c = digitChar d)
    (c0 : Char) (hc0 : c0 ∈ l) (hval : charDigitVal c0 = none) : False := by
  rcases h c0 hc0 with ⟨d, hd, rfl⟩
  rw [charDigitVal_digitChar d hd] at hval
  exact Option.noConfusion hval

/-- On an all-digit list the hexadecimal prefix cases of `parseInt` are
unreachable, so parsing is the plain decimal run. -/
theorem parseUnsignedJs_digits (l : List Char)
    (h : ∀ c ∈ l, ∃ d, d < 10 ∧ c = digitChar d) :
    parseUnsignedJs l = parseRun charDigitVal 10 l := by
  unfold parseUnsignedJs
  split
  · exfalso; exact not_digit_mem _ h 'x' (by simp) rfl
  · exfalso; exact not_digit_mem _ h 'X' (by simp) rfl
  · rfl

/-- `parseInt` run on exactly the digits of `n` yields `n`. -/
theorem parseIntChars_natDigits (n : Nat) : parseIntChars (natDigits n) = JNum.int n := by
  have hne := natDigits_ne_nil n
  have hdigs := natDigits_digits n
  obtain ⟨c0, cs, hcons⟩ : ∃ c0 cs, natDigits n = c0 :: cs := by
    cases hl : natDigits n with
    | nil => exact absurd hl hne
    | cons c0 cs => exact ⟨c0, cs, rfl⟩
  rcases hdigs c0 (by rw [hcons]; simp) with ⟨d0, hd0, hc0⟩
  have hdrop : (natDigits n).dropWhile isWsChar = natDigits n := by
    rw [hcons, List.dropWhile_cons, hc0, digitChar_not_ws d0 hd0]
    simp
  have hval : runVal charDigitVal 10 0 (natDigits n) = n := by
    have := runVal_natDigits n 0
    simpa using this
  have hrun : parseRun charDigitVal 10 (natDigits n) = JNum.int n := by
    rw [hcons, hc0]
    simp only [parseRun, charDigitVal_digitChar d0 hd0]
    have h2 : runVal charDigitVal 10 0 (digitChar d0 :: cs) = n := by
      rw [← hc0, ← hcons]; exact hval
    simp only [runVal, charDigitVal_digitChar d0 hd0] at h2
    simp only [Nat.mul_zero, Nat.zero_add] at h2
    simp [h2]
  unfold parseIntChars
  rw [hdrop]
  split
  next rest heq =>
    exfalso
    exact not_digit_mem _ hdigs '-' (by rw [heq]; simp) rfl
  next rest heq =>
    exfalso
    exact not_digit_mem _ hdigs '+' (by rw [heq]; simp) rfl
  next l1 hne1 hne2 =>
    rw [parseUnsignedJs_digits _ hdigs]
    exact hrun

/-! ## The envelope cipher (`src/crypto.js`, duplicated in `src/db.js`)

The cipher composes Node builtins: `JSON.stringify`/`JSON.parse` (together
with the UTF-8 byte view `cipher.update(_, 'utf8')` takes of the resulting
text), `crypto.pbkdf2Sync`, and AES-256-GCM via
`createCipheriv`/`createDecipheriv`.  These builtins are modelled as a bundle
of abstract functions carrying exactly the functional laws the Node
documentation gives them: serialization parses back, PBKDF2 returns the
requested number of bytes, GCM produces a 16-byte tag, ciphertext bytes are
bytes, and decryption with the same key, nonce, tag and ciphertext returns
the plaintext.  Envelope assembly, base64, slicing and the error surface are
the repository's own code and are modelled concretely. -/

/-- Abstract model of the Node builtins used by `crypto.js`, bundled with
their documented functional laws.  `Doc` is the type of JSON-serializable
documents. -/
structure JsPrims (Doc : Type) where
  stringify : Doc → List Nat
  parse : List Nat → Option Doc
  jsonText : Doc → String
  pbkdf2 : String → List Nat → Nat → Nat → List Nat
  aeadEnc : List Nat → List Nat → List Nat → List Nat × List Nat
  aeadDec : List Nat → List Nat → List Nat → List Nat → Option (List Nat)
  parse_stringify : ∀ d, parse (stringify d) = some d
  stringify_bytes : ∀ d, ∀ b ∈ stringify d, b < 256
  pbkdf2_len : ∀ p s it kl, (pbkdf2 p s it kl).length = kl
  aead_tag_len : ∀ k iv pt, (aeadEnc k iv pt).2.length = 16
  aead_tag_bytes : ∀ k iv pt, ∀ b ∈ (aeadEnc k iv pt).2, b < 256
  aead_ct_bytes : ∀ k iv pt, (∀ b ∈ pt, b < 256) → ∀ b ∈ (aeadEnc k iv pt).1, b < 256
  aead_dec_enc : ∀ k iv pt, aeadDec k iv (aeadEnc k iv pt).2 (aeadEnc k iv pt).1 = some pt

/-- `SALT_LENGTH` of `crypto.js`. -/
def SALT_LENGTH : Nat := 32

/-- `IV_LENGTH` of `crypto.js`. -/
def IV_LENGTH : Nat := 16

/-- `AUTH_TAG_LENGTH` of `crypto.js`. -/
def AUTH_TAG_LENGTH : Nat := 16

/-- `deriveKey` of `crypto.js`: PBKDF2 with 100000 iterations, 32-byte key. -/
def deriveKey {Doc : Type} (C : JsPrims Doc) (passphrase : String) (salt : List Nat) :
    List Nat :=
  C.pbkdf2 passphrase salt 100000 32

/-- `encryptData` of `crypto.js`: serialize, derive a key from the
passphrase and a fresh salt, encrypt under a fresh iv, and emit
`base64(salt ‖ iv ‖ authTag ‖ ciphertext)`.  The random `salt` and `iv`
produced by `crypto.randomBytes` are taken as explicit arguments. -/
def encryptData {Doc : Type} (C : JsPrims Doc) (data : Doc) (passphrase : String)
    (salt iv : List Nat) : String :=
  let jsonBytes := C.stringify data
  let key := deriveKey C passphrase salt
  let encrypted := (C.aeadEnc key iv jsonBytes).1
  let authTag := (C.aeadEnc key iv jsonBytes).2
  b64Encode (salt ++ iv ++ authTag ++ encrypted)

/-- The one error message `decryptData` ever throws (`src/db.js`). -/
def decryptionFailedMsg : String :=
  "Decryption failed - invalid passphrase or corrupted data"

/-- `decryptData` of the `src/db.js` variant of `crypto.js`: base64-decode,
slice the four segments at fixed offsets, re-derive the key, decrypt and
parse.  The whole body runs inside `try`/`catch`, and the catch clause
throws the single generic message regardless of which step failed. -/
def decryptData {Doc : Type} (C : JsPrims Doc) (encryptedString : String)
    (passphrase : String) : Except String Doc :=
  match C.aeadDec
      (deriveKey C passphrase ((nodeB64Decode encryptedString).take SALT_LENGTH))
      (((nodeB64Decode encryptedString).drop SALT_LENGTH).take IV_LENGTH)
      (((nodeB64Decode encryptedString).drop (SALT_LENGTH + IV_LENGTH)).take AUTH_TAG_LENGTH)
      ((nodeB64Decode encryptedString).drop (SALT_LENGTH + IV_LENGTH + AUTH_TAG_LENGTH)) with
  | some decrypted =>
    match C.parse decrypted with
    | some doc => Except.ok doc
    | none => Except.error decryptionFailedMsg
  | none => Except.error decryptionFailedMsg

/-- The authentication-tag byte lengths `decipher.setAuthTag` accepts for
GCM when no `authTagLength` option was given (Node documents 128, 120,
112, 104, 96, 64 and 32 bits). -/
def gcmTagLengths : List Nat := [4, 8, 12, 13, 14, 15, 16]

/-- `decryptData` of the stdio client's copy of `crypto.js` (no
`try`/`catch`): each Node step that throws propagates its own raw error.
`createDecipheriv` rejects an empty GCM iv (`Invalid initialization
vector`), `setAuthTag` rejects a tag of invalid length (`Invalid
authentication tag length: <n>`), a failed authentication at
`decipher.final` raises `Unsupported state or unable to authenticate
data`, and a `JSON.parse` failure raises a `SyntaxError` (represented here
by its message for truncated input).  None of these is the custom message
the `db.js` catch clause uses. -/
def decryptDataStdio {Doc : Type} (C : JsPrims Doc) (encryptedString : String)
    (passphrase : String) : Except String Doc :=
  if (((nodeB64Decode encryptedString).drop SALT_LENGTH).take IV_LENGTH) = [] then
    Except.error "Invalid initialization vector"
  else if (((nodeB64Decode encryptedString).drop (SALT_LENGTH + IV_LENGTH)).take
      AUTH_TAG_LENGTH).length ∈ gcmTagLengths then
    match C.aeadDec
        (deriveKey C passphrase ((nodeB64Decode encryptedString).take SALT_LENGTH))
        (((nodeB64Decode encryptedString).drop SALT_LENGTH).take IV_LENGTH)
        (((nodeB64Decode encryptedString).drop (SALT_LENGTH + IV_LENGTH)).take AUTH_TAG_LENGTH)
        ((nodeB64Decode encryptedString).drop (SALT_LENGTH + IV_LENGTH + AUTH_TAG_LENGTH)) with
    | some decrypted =>
      match C.parse decrypted with
      | some doc => Except.ok doc
      | none => Except.error "Unexpected end of JSON input"
    | none => Except.error "Unsupported state or unable to authenticate data"
  else
    Except.error ("Invalid authentication tag length: " ++
      natString (((nodeB64Decode encryptedString).drop (SALT_LENGTH + IV_LENGTH)).take
        AUTH_TAG_LENGTH).length)

/-- A JavaScript value as seen by the `typeof` check of `isEncrypted`. -/
inductive JsVal where
  | str : String → JsVal
  | num : Int → JsVal
  | boolean : Bool → JsVal
  | nullv : JsVal
  | undef : JsVal
deriving DecidableEq, Repr

/-- `isEncrypted` of `crypto.js`: non-strings are rejected by the `typeof`
check; a string is treated as an envelope iff its base64 decoding is longer
than `SALT_LENGTH + IV_LENGTH + AUTH_TAG_LENGTH + 10` bytes.
`Buffer.from(_, 'base64')` never throws, so the `catch` arm is dead. -/
def isEncrypted (v : JsVal) : Bool :=
  match v with
  | JsVal.str s =>
    decide ((nodeB64Decode s).length > SALT_LENGTH + IV_LENGTH + AUTH_TAG_LENGTH + 10)
  | _ => false

/-- `saveUserData` of `src/mcp.js`, the part that computes the value to
persist: encrypt when the account has encryption enabled, otherwise store
plain JSON text.  It performs no passphrase validation of its own and
cannot fail. -/
def saveUserData {Doc : Type} (C : JsPrims Doc) (encryptionEnabled : Bool)
    (passphrase : String) (data : Doc) (salt iv : List Nat) : Except String String :=
  if encryptionEnabled then
    Except.ok (encryptData C data passphrase salt iv)
  else
    Except.ok (C.jsonText data)

/-- The store path as a request actually reaches it: the `mcpAuth`
middleware of `src/mcp.js` rejects a falsy passphrase with
`PASSPHRASE_REQUIRED` and a failing verification with `INVALID_PASSPHRASE`
whenever the account has encryption enabled, and only then is
`saveUserData` invoked.  `verifyOk` abstracts the outcome of
`verifyPassphrase`. -/
def storeViaMcp {Doc : Type} (C : JsPrims Doc) (encryptionEnabled : Bool)
    (passphrase : Option String) (verifyOk : Bool) (data : Doc)
    (salt iv : List Nat) : Except String String :=
  if encryptionEnabled then
    match passphrase with
    | none => Except.error "PASSPHRASE_REQUIRED"
    | some p =>
      if p = "" then Except.error "PASSPHRASE_REQUIRED"
      else if verifyOk then saveUserData C true p data salt iv
      else Except.error "INVALID_PASSPHRASE"
  else
    saveUserData C false (passphrase.getD "") data salt iv

/-! ## The graph mutation engine (`executeTool` of `src/mcp.js`)

Each `cosimo_*` tool case of `executeTool` is embedded as a pure function
from the in-memory graph (plus the tool arguments and the current timestamp)
to the mutated graph.  Argument objects distinguish absent fields
(`Option`), since the merge logic mixes truthiness checks with
`!== undefined` checks.  JavaScript object key/value maps are modelled as
insertion-ordered association lists. -/

/-- An objective record. -/
structure Objective where
  id : String
  title : String
  description : String
  urgency : Int
  deadline : String
  impact : String
  linkedDeliverables : List String
deriving DecidableEq, Repr

/-- A deliverable record. -/
structure Deliverable where
  id : String
  title : String
  description : String
  feasibility : Int
  complexity : String
  blockers : List String
  linkedObjectives : List String
  available_after : Option String
  due_before : Option String
deriving DecidableEq, Repr

/-- The per-user graph: the unit of storage. -/
structure GraphData where
  objectives : List Objective
  deliverables : List Deliverable
  relationships : List (String × String)
  lastUpdated : Option String
deriving DecidableEq, Repr

/-- `DEFAULT_DATA`: the canonical empty graph. -/
def emptyGraph : GraphData :=
  { objectives := [], deliverables := [], relationships := [], lastUpdated := none }

/-- JavaScript `a || b` for an optional string `a`: a missing or empty
string falls back to the default. -/
def jsOr (a : Option String) (dflt : String) : String :=
  match a with
  | some s => if s = "" then dflt else s
  | none => dflt

/-- JavaScript truthy merge `...(args.f && { f: args.f })` over a required
string field: the field keeps its old value unless the argument is present
and nonempty. -/
def jsMergeStr (a : Option String) (old : String) : String :=
  match a with
  | some s => if s = "" then old else s
  | none => old

/-- The same truthy merge over a field that may be absent in the record
(`available_after`, `due_before`). -/
def jsMergeOpt (a : Option String) (old : Option String) : Option String :=
  match a with
  | some s => if s = "" then old else some s
  | none => old

/-- JavaScript `s.startsWith(pre)`: character-list prefix test. -/
def jsStartsWith (s pre : String) : Bool :=
  List.isPrefixOf pre.data s.data

/-- JavaScript `s.endsWith(suf)`: character-list suffix test. -/
def jsEndsWith (s suf : String) : Bool :=
  List.isSuffixOf suf.data s.data

/-- Mutation of the first array element satisfying the predicate: the
`find`-then-mutate pattern of `executeTool`. -/
def updateFirst {α : Type} (p : α → Bool) (f : α → α) : List α → List α
  | [] => []
  | x :: xs => if p x then f x :: xs else x :: updateFirst p f xs

/-- JavaScript object update `obj[k] = v`: replace in place when the key
exists, append otherwise. -/
def assocSet (l : List (String × String)) (k v : String) : List (String × String) :=
  if l.any (fun kv => kv.1 == k) then
    l.map (fun kv => if kv.1 == k then (k, v) else kv)
  else
    l ++ [(k, v)]

/-- Arguments of `cosimo_add_objective`. -/
structure AddObjectiveArgs where
  title : String
  description : Option String
  urgency : Option Int
  deadline : Option String
  impact : Option String
deriving DecidableEq, Repr

/-- Arguments of `cosimo_add_deliverable`. -/
structure AddDeliverableArgs where
  title : String
  objectiveId : String
  description : Option String
  feasibility : Option Int
  complexity : Option String
  relationship : Option String
  available_after : Option String
  due_before : Option String
deriving DecidableEq, Repr

/-- Arguments of `cosimo_update_objective`. -/
structure UpdateObjectiveArgs where
  id : String
  title : Option String
  description : Option String
  urgency : Option Int
  deadline : Option String
  impact : Option String
deriving DecidableEq, Repr

/-- Arguments of `cosimo_update_deliverable`. -/
structure UpdateDeliverableArgs where
  id : String
  title : Option String
  description : Option String
  feasibility : Option Int
  complexity : Option String
  available_after : Option String
  due_before : Option String
deriving DecidableEq, Repr

/-- The id allocator shared by both add operations:
`objects.length ? Math.max(...objects.map(o => parseInt(o.id.split('-')[1]))) : 0`. -/
def allocMax (ids : List String) : JNum :=
  if ids.isEmpty then JNum.int 0
  else jsMaxList (ids.map parseSuffix)

/-- `cosimo_add_objective`: allocate `obj-<max+1>`, fill defaults, append.
Returns the mutated graph and the created objective. -/
def cosimoAddObjective (g : GraphData) (args : AddObjectiveArgs) (now : String) :
    GraphData × Objective :=
  let maxId := allocMax (g.objectives.map (fun o => o.id))
  let newObj : Objective :=
    { id := "obj-" ++ jnumToString (jsAdd maxId (JNum.int 1))
      title := args.title
      description := jsOr args.description ""
      urgency := args.urgency.getD 50
      deadline := jsOr args.deadline ""
      impact := jsOr args.impact "medium"
      linkedDeliverables := [] }
  ({ g with objectives := g.objectives ++ [newObj], lastUpdated := some now }, newObj)

/-- `cosimo_add_deliverable`: allocate `del-<max+1>`, fill defaults, append,
back-link the named objective when it exists (first match; silently skipped
otherwise), and record the relationship text when supplied. -/
def cosimoAddDeliverable (g : GraphData) (args : AddDeliverableArgs) (now : String) :
    GraphData × Deliverable :=
  let maxId := allocMax (g.deliverables.map (fun d => d.id))
  let newDel : Deliverable :=
    { id := "del-" ++ jnumToString (jsAdd maxId (JNum.int 1))
      title := args.title
      description := jsOr args.description ""
      feasibility := args.feasibility.getD 50
      complexity := jsOr args.complexity "medium"
      blockers := []
      linkedObjectives := [args.objectiveId]
      available_after := jsMergeOpt args.available_after none
      due_before := jsMergeOpt args.due_before none }
  let objectives1 :=
    updateFirst (fun o => o.id == args.objectiveId)
      (fun o => { o with linkedDeliverables := o.linkedDeliverables ++ [newDel.id] })
      g.objectives
  let relationships1 :=
    match args.relationship with
    | some r =>
      if r = "" then g.relationships
      else assocSet g.relationships (args.objectiveId ++ ":" ++ newDel.id) r
    | none => g.relationships
  ({ g with objectives := objectives1
            deliverables := g.deliverables ++ [newDel]
            relationships := relationships1
            lastUpdated := some now }, newDel)

/-- The `Object.assign` merge of `cosimo_update_objective`: truthy checks
for the string fields, a `!== undefined` check for `urgency`. -/
def mergeObjective (args : UpdateObjectiveArgs) (o : Objective) : Objective :=
  { o with
    title := jsMergeStr args.title o.title
    description := jsMergeStr args.description o.description
    urgency := args.urgency.getD o.urgency
    deadline := jsMergeStr args.deadline o.deadline
    impact := jsMergeStr args.impact o.impact }

/-- The `Object.assign` merge of `cosimo_update_deliverable`: truthy checks
for the string fields, a `!== undefined` check for `feasibility`. -/
def mergeDeliverable (args : UpdateDeliverableArgs) (d : Deliverable) : Deliverable :=
  { d with
    title := jsMergeStr args.title d.title
    description := jsMergeStr args.description d.description
    feasibility := args.feasibility.getD d.feasibility
    complexity := jsMergeStr args.complexity d.complexity
    available_after := jsMergeOpt args.available_after d.available_after
    due_before := jsMergeOpt args.due_before d.due_before }

/-- `cosimo_update_objective`: find the objective by id (`Objective not
found` when absent) and merge the supplied fields into it in place. -/
def cosimoUpdateObjective (g : GraphData) (args : UpdateObjectiveArgs) (now : String) :
    Except String GraphData :=
  match g.objectives.find? (fun o => o.id == args.id) with
  | none => Except.error "Objective not found"
  | some _ =>
    Except.ok
      { g with
        objectives := updateFirst (fun o => o.id == args.id) (mergeObjective args) g.objectives
        lastUpdated := some now }

/-- `cosimo_update_deliverable`: find the deliverable by id (`Deliverable
not found` when absent) and merge the supplied fields into it in place. -/
def cosimoUpdateDeliverable (g : GraphData) (args : UpdateDeliverableArgs) (now : String) :
    Except String GraphData :=
  match g.deliverables.find? (fun d => d.id == args.id) with
  | none => Except.error "Deliverable not found"
  | some _ =>
    Except.ok
      { g with
        deliverables :=
          updateFirst (fun d => d.id == args.id) (mergeDeliverable args) g.deliverables
        lastUpdated := some now }

/-- `cosimo_delete`: an `obj-` id removes the objective, strips it from
every deliverable's `linkedObjectives`, and deletes every relationship key
starting with `"<id>:"`; a `del-` id is symmetric; any other id only
restamps the timestamp. -/
def cosimoDelete (g : GraphData) (id : String) (now : String) : GraphData :=
  if jsStartsWith id "obj-" then
    { g with
      objectives := g.objectives.filter (fun o => o.id != id)
      deliverables := g.deliverables.map
        (fun d => { d with linkedObjectives := d.linkedObjectives.filter (fun oid => oid != id) })
      relationships := g.relationships.filter (fun kv => ! jsStartsWith kv.1 (id ++ ":"))
      lastUpdated := some now }
  else if jsStartsWith id "del-" then
    { g with
      objectives := g.objectives.map
        (fun o => { o with linkedDeliverables := o.linkedDeliverables.filter (fun did => did != id) })
      deliverables := g.deliverables.filter (fun d => d.id != id)
      relationships := g.relationships.filter (fun kv => ! jsEndsWith kv.1 (":" ++ id))
      lastUpdated := some now }
  else
    { g with lastUpdated := some now }

/-- One graph mutation, as named by claim C3: the add, update and delete
tools (a failed update leaves the graph unchanged, since the thrown error
aborts the cycle before the save). -/
inductive GraphOp where
  | addObj : AddObjectiveArgs → String → GraphOp
  | addDel : AddDeliverableArgs → String → GraphOp
  | updObj : UpdateObjectiveArgs → String → GraphOp
  | updDel : UpdateDeliverableArgs → String → GraphOp
  | del : String → String → GraphOp

/-- Effect of one graph mutation on the graph. -/
def execOp (g : GraphData) : GraphOp → GraphData
  | GraphOp.addObj a now => (cosimoAddObjective g a now).1
  | GraphOp.addDel a now => (cosimoAddDeliverable g a now).1
  | GraphOp.updObj a now =>
    match cosimoUpdateObjective g a now with
    | Except.ok g1 => g1
    | Except.error _ => g
  | GraphOp.updDel a now =>
    match cosimoUpdateDeliverable g a now with
    | Except.ok g1 => g1
    | Except.error _ => g
  | GraphOp.del id now => cosimoDelete g id now

/-- Effect of a sequence of graph mutations, oldest first. -/
def execOps (g : GraphData) (ops : List GraphOp) : GraphData :=
  ops.foldl execOp g

/-! ## The line-transport JSON-RPC dispatcher (`handleRequest` and the
`readline` handler of the stdio client)

The dispatcher's method table is embedded with the tool executor abstracted
to a function argument (its graph behaviour is modelled above); what the
claims concern is the shape of the envelope each arm produces. -/

/-- A JSON-RPC request id: a number, a string, or `null`. -/
inductive RpcId where
  | num : Int → RpcId
  | str : String → RpcId
  | null : RpcId
deriving DecidableEq, Repr

/-- One `{type:"text", text:...}` content item. -/
structure TextItem where
  type : String
  text : String
deriving DecidableEq, Repr

/-- The result payloads the method table produces. -/
inductive RpcPayload where
  | initResult : String → String → String → RpcPayload
  | toolCatalog : List String → RpcPayload
  | callResult : List TextItem → Option Bool → RpcPayload
deriving DecidableEq, Repr

/-- A JSON-RPC response line: a success envelope (a `result` field) or an
error envelope (an `error` field with code and message). -/
inductive RpcResponse where
  | success : RpcId → RpcPayload → RpcResponse
  | failure : RpcId → Int → String → RpcResponse
deriving DecidableEq, Repr

/-- A parsed JSON-RPC request.  `paramName`/`paramArgs` are the
`params.name` and `params.arguments` consumed by `tools/call`. -/
structure RpcRequest (Args : Type) where
  method : String
  paramName : String
  paramArgs : Args
  id : RpcId

/-- `SERVER_INFO` of the stdio client. -/
def SERVER_INFO : String × String × String :=
  ("cosimo", "1.0.0", "2024-11-05")

/-- Names of the static tool catalog `TOOLS`. -/
def TOOL_NAMES : List String :=
  ["cosimo_get", "cosimo_set", "cosimo_add_objective", "cosimo_add_deliverable",
    "cosimo_update_objective", "cosimo_update_deliverable", "cosimo_delete"]

/-- `handleRequest` of the stdio client: the JSON-RPC method table.
`exec` abstracts `executeTool`; a thrown tool error is an `Except.error`.
`none` models the no-reply notification case. -/
def handleRequest {Args : Type} (exec : String → Args → Except String (List TextItem))
    (req : RpcRequest Args) : Option RpcResponse :=
  if req.method = "initialize" then
    some (RpcResponse.success req.id
      (RpcPayload.initResult SERVER_INFO.2.2 SERVER_INFO.1 SERVER_INFO.2.1))
  else if req.method = "notifications/initialized" then
    none
  else if req.method = "tools/list" then
    some (RpcResponse.success req.id (RpcPayload.toolCatalog TOOL_NAMES))
  else if req.method = "tools/call" then
    match exec req.paramName req.paramArgs with
    | Except.ok content =>
      some (RpcResponse.success req.id (RpcPayload.callResult content none))
    | Except.error e =>
      some (RpcResponse.success req.id
        (RpcPayload.callResult [{ type := "text", text := "Error: " ++ e }] (some true)))
  else
    some (RpcResponse.failure req.id (-32601) ("Method not found: " ++ req.method))

/-- The `rl.on('line')` handler: a line that fails `JSON.parse` (modelled as
`none`) is answered with JSON-RPC error `-32700` and `id:null`; otherwise
the parsed request goes through `handleRequest`. -/
def handleLine {Args : Type} (exec : String → Args → Except String (List TextItem))
    (parsed : Option (RpcRequest Args)) : Option RpcResponse :=
  match parsed with
  | none => some (RpcResponse.failure RpcId.null (-32700) "Parse error")
  | some req => handleRequest exec req

/-! ## A concrete instantiation of the abstract Node builtins

Witness theorems need the abstract primitive bundle instantiated with total
computable functions satisfying its laws; fidelity to AES/PBKDF2 is not
required for that, only the functional laws are. -/

/-- A toy tag function: 16 bytes determined by key, iv and message. -/
def toyTag (k iv msg : List Nat) : List Nat :=
  (List.range 16).map (fun j => (k.sum + iv.sum + msg.sum + j) % 256)

/-- A concrete primitive bundle over `Bool` documents. -/
def toyPrims : JsPrims Bool :=
  { stringify := fun b => if b then [49] else [48]
    parse := fun l =>
      match l with
      | [49] => some true
      | [48] => some false
      | _ => none
    jsonText := fun b => if b then "true" else "false"
    pbkdf2 := fun p s it kl => (List.range kl).map (fun j => (p.length + s.sum + it + j) % 256)
    aeadEnc := fun k iv pt => (pt, toyTag k iv pt)
    aeadDec := fun k iv tag ct => if tag = toyTag k iv ct then some ct else none
    parse_stringify := by intro d; cases d <;> rfl
    stringify_bytes := by intro d; cases d <;> simp
    pbkdf2_len := by intro p s it kl; simp
    aead_tag_len := by intro k iv pt; simp [toyTag]
    aead_tag_bytes := by
      intro k iv pt b hb
      simp only [toyTag, List.mem_map] at hb
      rcases hb with ⟨j, _, rfl⟩
      exact Nat.mod_lt _ (by omega)
    aead_ct_bytes := by intro k iv pt h b hb; exact h b hb
    aead_dec_enc := by intro k iv pt; simp }

/-! ## Envelope structure lemmas -/

/-- The byte sequence of a freshly sealed envelope. -/
theorem encryptData_bytes {Doc : Type} (C : JsPrims Doc) (d : Doc) (p : String)
    (salt iv : List Nat) (hsb : ∀ b ∈ salt, b < 256) (hib : ∀ b ∈ iv, b < 256) :
    nodeB64Decode (encryptData C d p salt iv) =
      salt ++ iv ++ (C.aeadEnc (deriveKey C p salt) iv (C.stringify d)).2 ++
        (C.aeadEnc (deriveKey C p salt) iv (C.stringify d)).1 := by
  unfold encryptData
  apply nodeB64Decode_b64Encode
  intro b hb
  simp only [List.mem_append] at hb
  rcases hb with ((hb | hb) | hb) | hb
  · exact hsb b hb
  · exact hib b hb
  · exact C.aead_tag_bytes _ _ _ b hb
  · exact C.aead_ct_bytes _ _ _ (C.stringify_bytes d) b hb

/-- Slicing a well-formed `salt ‖ iv ‖ tag ‖ ct` concatenation at the fixed
offsets recovers the four segments. -/
theorem envelope_slices (salt iv tag ct : List Nat)
    (hs : salt.length = 32) (hi : iv.length = 16) (ht : tag.length = 16) :
    let buffer := salt ++ iv ++ tag ++ ct
    buffer.take SALT_LENGTH = salt ∧
    (buffer.drop SALT_LENGTH).take IV_LENGTH = iv ∧
    (buffer.drop (SALT_LENGTH + IV_LENGTH)).take AUTH_TAG_LENGTH = tag ∧
    buffer.drop (SALT_LENGTH + IV_LENGTH + AUTH_TAG_LENGTH) = ct := by
  intro buffer
  have hb : buffer = salt ++ (iv ++ (tag ++ ct)) := by simp [buffer, List.append_assoc]
  have h1 : buffer.take SALT_LENGTH = salt := by
    rw [hb]; exact List.take_left' hs
  have hdrop32 : buffer.drop SALT_LENGTH = iv ++ (tag ++ ct) := by
    rw [hb]; exact List.drop_left' hs
  have h2 : (buffer.drop SALT_LENGTH).take IV_LENGTH = iv := by
    rw [hdrop32]; exact List.take_left' hi
  have hdrop48 : buffer.drop (SALT_LENGTH + IV_LENGTH) = tag ++ ct := by
    rw [← List.drop_drop, hdrop32]; exact List.drop_left' hi
  have h3 : (buffer.drop (SALT_LENGTH + IV_LENGTH)).take AUTH_TAG_LENGTH = tag := by
    rw [hdrop48]; exact List.take_left' ht
  have h4 : buffer.drop (SALT_LENGTH + IV_LENGTH + AUTH_TAG_LENGTH) = ct := by
    rw [← List.drop_drop, hdrop48]; exact List.drop_left' ht
  exact ⟨h1, h2, h3, h4⟩

/-- C1.  For every JSON-serializable document `d` and every passphrase `p`,
decrypting the envelope produced by encryption with the same passphrase
returns the original document: `decryptData (encryptData d p) p = ok d`,
for every salt and iv `crypto.randomBytes` can produce (32 and 16 bytes). -/
theorem encrypt_decrypt_roundtrip {Doc : Type} (C : JsPrims Doc) (d : Doc) (p : String)
    (salt iv : List Nat) (hsl : salt.length = 32) (hsb : ∀ b ∈ salt, b < 256)
    (hil : iv.length = 16) (hib : ∀ b ∈ iv, b < 256) :
    decryptData C (encryptData C d p salt iv) p = Except.ok d := by
  unfold decryptData
  rw [encryptData_bytes C d p salt iv hsb hib]
  obtain ⟨h1, h2, h3, h4⟩ :=
    envelope_slices salt iv _ _ hsl hil (C.aead_tag_len (deriveKey C p salt) iv (C.stringify d))
  rw [h1, h2, h3, h4, C.aead_dec_enc]
  simp [C.parse_stringify]

/-- C1 witness: the round trip evaluated at the concrete primitive bundle,
document `true`, passphrase `"pw"`, and an all-zero salt and iv. -/
theorem encrypt_decrypt_roundtrip_witness :
    decryptData toyPrims
      (encryptData toyPrims true "pw" (List.replicate 32 0) (List.replicate 16 0)) "pw" =
      Except.ok true :=
  encrypt_decrypt_roundtrip toyPrims true "pw" (List.replicate 32 0) (List.replicate 16 0)
    (by simp) (by simp) (by simp) (by simp)

/-- A tag-length error message never equals the generic catch message,
whatever length is reported: the two strings differ at their first
character. -/
theorem tagLenMsg_ne_generic (u : String) :
    ("Invalid authentication tag length: " ++ u) ≠ decryptionFailedMsg := by
  intro h
  have h3 : (("Invalid authentication tag length: " ++ u).data).head? = some 'I' := by
    rw [String.data_append]
    rfl
  rw [h] at h3
  exact absurd h3 (by decide)

/-- C2 counterexample.  The stdio client's copy of `decryptData` (cited by
the claim and lacking the `try`/`catch`) does not fail with the single
generic `DecryptionFailed` error on malformed structure: an empty envelope
fails at iv validation and a 49-byte envelope fails at tag-length
validation, with errors distinguishable from each other, from the
authentication failure, and from the generic message. -/
theorem decrypt_stdio_raw_errors_cex :
    decryptDataStdio toyPrims "" "pw" = Except.error "Invalid initialization vector" ∧
    decryptDataStdio toyPrims (b64Encode (List.replicate 49 0)) "pw" =
      Except.error "Invalid authentication tag length: 1" ∧
    ("Invalid initialization vector" : String) ≠ decryptionFailedMsg ∧
    ("Invalid initialization vector" : String) ≠
      "Unsupported state or unable to authenticate data" ∧
    ("Invalid authentication tag length: 1" : String) ≠ "Invalid initialization vector" :=
  ⟨rfl, rfl, by decide, by decide, by decide⟩

/-- C2 amended.  The `db.js` copy of `decryptData` (the Envelope Cipher)
has a one-point error surface: whenever it fails it fails with the one
generic message, and the cipher rejecting the sliced key, tag and
ciphertext — wrong passphrase and tampering alike — yields exactly that
failure.  The stdio client's copy propagates raw Node errors instead, so it
never produces the generic message, but wrong passphrase and corrupted
ciphertext remain indistinguishable there too: on a structurally
well-formed envelope both surface as the same authentication-failure
error. -/
theorem decrypt_single_generic_error :
    (∀ (Doc : Type) (C : JsPrims Doc) (s p e : String),
      decryptData C s p = Except.error e → e = decryptionFailedMsg)
    ∧ (∀ (Doc : Type) (C : JsPrims Doc) (p : String) (salt iv tag ct : List Nat),
        salt.length = 32 → (∀ b ∈ salt, b < 256) →
        iv.length = 16 → (∀ b ∈ iv, b < 256) →
        tag.length = 16 → (∀ b ∈ tag, b < 256) → (∀ b ∈ ct, b < 256) →
        C.aeadDec (deriveKey C p salt) iv tag ct = none →
        decryptData C (b64Encode (salt ++ iv ++ tag ++ ct)) p =
          Except.error decryptionFailedMsg)
    ∧ (∀ (Doc : Type) (C : JsPrims Doc) (s p e : String),
      decryptDataStdio C s p = Except.error e → e ≠ decryptionFailedMsg)
    ∧ (∀ (Doc : Type) (C : JsPrims Doc) (p : String) (salt iv tag ct : List Nat),
        salt.length = 32 → (∀ b ∈ salt, b < 256) →
        iv.length = 16 → (∀ b ∈ iv, b < 256) →
        tag.length = 16 → (∀ b ∈ tag, b < 256) → (∀ b ∈ ct, b < 256) →
        C.aeadDec (deriveKey C p salt) iv tag ct = none →
        decryptDataStdio C (b64Encode (salt ++ iv ++ tag ++ ct)) p =
          Except.error "Unsupported state or unable to authenticate data") := by
  refine ⟨?_, ?_, ?_, ?_⟩
  · intro Doc C s p e h
    unfold decryptData at h
    split at h
    · split at h
      · exact Except.noConfusion h
      · exact (Except.error.inj h).symm
    · exact (Except.error.inj h).symm
  · intro Doc C p salt iv tag ct hsl hsb hil hib htl htb hcb hrej
    unfold decryptData
    have hbuf : nodeB64Decode (b64Encode (salt ++ iv ++ tag ++ ct)) =
        salt ++ iv ++ tag ++ ct := by
      apply nodeB64Decode_b64Encode
      intro b hb
      simp only [List.mem_append] at hb
      rcases hb with ((hb | hb) | hb) | hb
      · exact hsb b hb
      · exact hib b hb
      · exact htb b hb
      · exact hcb b hb
    rw [hbuf]
    obtain ⟨h1, h2, h3, h4⟩ := envelope_slices salt iv tag ct hsl hil htl
    rw [h1, h2, h3, h4, hrej]
  · intro Doc C s p e h
    unfold decryptDataStdio at h
    split at h
    · rw [← Except.error.inj h]
      decide
    · split at h
      · split at h
        · split at h
          · exact Except.noConfusion h
          · rw [← Except.error.inj h]
            decide
        · rw [← Except.error.inj h]
          decide
      · rw [← Except.error.inj h]
        exact tagLenMsg_ne_generic _
  · intro Doc C p salt iv tag ct hsl hsb hil hib htl htb hcb hrej
    unfold decryptDataStdio
    have hbuf : nodeB64Decode (b64Encode (salt ++ iv ++ tag ++ ct)) =
        salt ++ iv ++ tag ++ ct := by
      apply nodeB64Decode_b64Encode
      intro b hb
      simp only [List.mem_append] at hb
      rcases hb with ((hb | hb) | hb) | hb
      · exact hsb b hb
      · exact hib b hb
      · exact htb b hb
      · exact hcb b hb
    rw [hbuf]
    obtain ⟨h1, h2, h3, h4⟩ := envelope_slices salt iv tag ct hsl hil htl
    rw [h1, h2, h3, h4]
    have hivne : iv ≠ [] := by
      intro hemp
      rw [hemp] at hil
      simp at hil
    rw [if_neg hivne, if_pos (by rw [htl]; decide), hrej]

/-- C2 witness: the four conjuncts applied at concrete inputs — an
arbitrary failing `db.js` decryption, an envelope sealed under one
passphrase rejected under another by each of the two copies, and a raw
stdio error compared with the generic message. -/
theorem decrypt_single_generic_error_witness :
    decryptData toyPrims "garbage" "pw" = Except.error decryptionFailedMsg ∧
    decryptData toyPrims
        (b64Encode (List.replicate 32 0 ++ List.replicate 16 0 ++
          toyTag (deriveKey toyPrims "a" (List.replicate 32 0)) (List.replicate 16 0) [49] ++
          [49])) "bb" =
      Except.error decryptionFailedMsg ∧
    ("Invalid initialization vector" : String) ≠ decryptionFailedMsg ∧
    decryptDataStdio toyPrims
        (b64Encode (List.replicate 32 0 ++ List.replicate 16 0 ++
          toyTag (deriveKey toyPrims "a" (List.replicate 32 0)) (List.replicate 16 0) [49] ++
          [49])) "bb" =
      Except.error "Unsupported state or unable to authenticate data" := by
  refine ⟨rfl, ?_, ?_, ?_⟩
  · exact decrypt_single_generic_error.2.1 Bool toyPrims "bb"
      (List.replicate 32 0) (List.replicate 16 0)
      (toyTag (deriveKey toyPrims "a" (List.replicate 32 0)) (List.replicate 16 0) [49]) [49]
      (by simp) (by simp) (by simp) (by simp)
      (by simp [toyTag]) (by decide) (by decide) (by decide)
  · exact decrypt_single_generic_error.2.2.1 Bool toyPrims "" "pw"
      "Invalid initialization vector" rfl
  · exact decrypt_single_generic_error.2.2.2 Bool toyPrims "bb"
      (List.replicate 32 0) (List.replicate 16 0)
      (toyTag (deriveKey toyPrims "a" (List.replicate 32 0)) (List.replicate 16 0) [49]) [49]
      (by simp) (by simp) (by simp) (by simp)
      (by simp [toyTag]) (by decide) (by decide) (by decide)

/-- C10.  `isEncrypted` is total: every non-string is rejected, and on a
string the answer is determined solely by whether the base64-decoded byte
length exceeds `SALT_LENGTH + IV_LENGTH + AUTH_TAG_LENGTH + 10 = 74`. -/
theorem isEncrypted_total :
    (∀ v : JsVal, (∀ s, v ≠ JsVal.str s) → isEncrypted v = false)
    ∧ (∀ s : String,
        isEncrypted (JsVal.str s) =
          decide ((nodeB64Decode s).length > SALT_LENGTH + IV_LENGTH + AUTH_TAG_LENGTH + 10))
    ∧ SALT_LENGTH + IV_LENGTH + AUTH_TAG_LENGTH + 10 = 74 := by
  refine ⟨?_, fun s => rfl, rfl⟩
  intro v hv
  cases v with
  | str s => exact absurd rfl (hv s)
  | num n => rfl
  | boolean b => rfl
  | nullv => rfl
  | undef => rfl

/-- C10 witness: the theorem applied at the non-string value `5`. -/
theorem isEncrypted_total_witness : isEncrypted (JsVal.num 5) = false :=
  isEncrypted_total.1 (JsVal.num 5) (fun _s h => JsVal.noConfusion h)

/-- C6 counterexample.  The store operation itself performs no passphrase
check: called with encryption enabled and the empty passphrase it does not
fail with `PassphraseRequired` — it succeeds, returning an envelope sealed
under the empty passphrase (which decrypts under the empty passphrase). -/
theorem store_empty_passphrase_cex :
    saveUserData toyPrims true "" true (List.replicate 32 0) (List.replicate 16 0) =
      Except.ok (encryptData toyPrims true "" (List.replicate 32 0) (List.replicate 16 0)) ∧
    decryptData toyPrims
        (encryptData toyPrims true "" (List.replicate 32 0) (List.replicate 16 0)) "" =
      Except.ok true := by
  constructor
  · rfl
  · rfl

/-- C6 amended.  The `PassphraseRequired` rejection of an empty or absent
passphrase lives in the `mcpAuth` middleware, not in the store function; on
the composed request path an encrypted account with a missing or empty
passphrase fails with `PASSPHRASE_REQUIRED`, a verified nonempty passphrase
stores the sealed envelope, and an unencrypted account stores the plain
JSON text. -/
theorem store_gate :
    (∀ (Doc : Type) (C : JsPrims Doc) (verifyOk : Bool) (data : Doc) (salt iv : List Nat),
      storeViaMcp C true none verifyOk data salt iv = Except.error "PASSPHRASE_REQUIRED")
    ∧ (∀ (Doc : Type) (C : JsPrims Doc) (verifyOk : Bool) (data : Doc) (salt iv : List Nat),
      storeViaMcp C true (some "") verifyOk data salt iv =
        Except.error "PASSPHRASE_REQUIRED")
    ∧ (∀ (Doc : Type) (C : JsPrims Doc) (p : String) (data : Doc) (salt iv : List Nat),
      p ≠ "" →
      storeViaMcp C true (some p) true data salt iv =
        Except.ok (encryptData C data p salt iv))
    ∧ (∀ (Doc : Type) (C : JsPrims Doc) (pass : Option String) (verifyOk : Bool) (data : Doc)
        (salt iv : List Nat),
      storeViaMcp C false pass verifyOk data salt iv = Except.ok (C.jsonText data)) := by
  refine ⟨fun Doc C verifyOk data salt iv => rfl, fun Doc C verifyOk data salt iv => rfl,
    ?_, fun Doc C pass verifyOk data salt iv => rfl⟩
  intro Doc C p data salt iv hp
  simp [storeViaMcp, saveUserData, hp]

/-- C6 witness: the nonempty-passphrase conjunct applied at a concrete
verified store. -/
theorem store_gate_witness :
    storeViaMcp toyPrims true (some "pw") true true (List.replicate 32 0)
        (List.replicate 16 0) =
      Except.ok (encryptData toyPrims true "pw" (List.replicate 32 0) (List.replicate 16 0)) :=
  store_gate.2.2.1 Bool toyPrims "pw" true (List.replicate 32 0) (List.replicate 16 0)
    (by decide)

/-- C8.  Tool failures surface inside a JSON-RPC success envelope carrying
`isError:true` and are never JSON-RPC-level errors; unknown methods get
error `-32601`; an unparsable line gets error `-32700` with `id:null`. -/
theorem rpc_error_surface :
    (∀ (Args : Type) (exec : String → Args → Except String (List TextItem))
        (name : String) (args : Args) (id : RpcId) (e : String),
      exec name args = Except.error e →
      handleRequest exec { method := "tools/call", paramName := name, paramArgs := args, id := id } =
        some (RpcResponse.success id
          (RpcPayload.callResult [{ type := "text", text := "Error: " ++ e }] (some true))))
    ∧ (∀ (Args : Type) (exec : String → Args → Except String (List TextItem))
        (req : RpcRequest Args),
      req.method ≠ "initialize" → req.method ≠ "notifications/initialized" →
      req.method ≠ "tools/list" → req.method ≠ "tools/call" →
      handleRequest exec req =
        some (RpcResponse.failure req.id (-32601) ("Method not found: " ++ req.method)))
    ∧ (∀ (Args : Type) (exec : String → Args → Except String (List TextItem)),
      handleLine exec (none : Option (RpcRequest Args)) =
        some (RpcResponse.failure RpcId.null (-32700) "Parse error"))
    ∧ (∀ (Args : Type) (exec : String → Args → Except String (List TextItem))
        (req : RpcRequest Args) (r : RpcResponse),
      req.method = "tools/call" → handleRequest exec req = some r →
      ∃ payload, r = RpcResponse.success req.id payload) := by
  refine ⟨?_, ?_, fun Args exec => rfl, ?_⟩
  · intro Args exec name args id e he
    simp [handleRequest, he]
  · intro Args exec req h1 h2 h3 h4
    simp [handleRequest, h1, h2, h3, h4]
  · intro Args exec req r hm hr
    simp only [handleRequest, hm, if_pos, if_neg, String.reduceEq] at hr
    cases hexec : exec req.paramName req.paramArgs with
    | ok content =>
      rw [hexec] at hr
      exact ⟨_, (Option.some.inj hr).symm⟩
    | error e =>
      rw [hexec] at hr
      exact ⟨_, (Option.some.inj hr).symm⟩

/-- C8 witness: a concrete failing tool call, an unknown method, and the
parse-error line, each through the corresponding conjunct. -/
theorem rpc_error_surface_witness :
    handleRequest (fun (_ : String) (_ : Unit) => Except.error "boom")
        { method := "tools/call", paramName := "cosimo_get", paramArgs := (), id := RpcId.num 1 } =
      some (RpcResponse.success (RpcId.num 1)
        (RpcPayload.callResult [{ type := "text", text := "Error: boom" }] (some true))) ∧
    handleRequest (fun (_ : String) (_ : Unit) => Except.error "boom")
        { method := "bogus/method", paramName := "", paramArgs := (), id := RpcId.num 2 } =
      some (RpcResponse.failure (RpcId.num 2) (-32601) "Method not found: bogus/method") ∧
    handleLine (fun (_ : String) (_ : Unit) => Except.error "boom") none =
      some (RpcResponse.failure RpcId.null (-32700) "Parse error") := by
  refine ⟨?_, ?_, rpc_error_surface.2.2.1 Unit _⟩
  · exact rpc_error_surface.1 Unit _ "cosimo_get" () (RpcId.num 1) "boom" rfl
  · have h := rpc_error_surface.2.1 Unit (fun _ _ => Except.error "boom")
      { method := "bogus/method", paramName := "", paramArgs := (), id := RpcId.num 2 }
      (by decide) (by decide) (by decide) (by decide)
    simpa using h


/-! ## Helper lemmas for the find-then-mutate pattern -/

/-- Every element of `updateFirst p f l` is either an element of `l` or the
image under `f` of an element of `l` satisfying `p`. -/
theorem updateFirst_mem {α : Type} (p : α → Bool) (f : α → α) :
    ∀ (l : List α) (y : α), y ∈ updateFirst p f l →
      y ∈ l ∨ ∃ x, x ∈ l ∧ p x = true ∧ y = f x := by
  intro l
  induction l with
  | nil => intro y hy; simp [updateFirst] at hy
  | cons x xs ih =>
    intro y hy
    by_cases hp : p x = true
    · rw [updateFirst, if_pos hp] at hy
      rcases List.mem_cons.mp hy with h | h
      · exact Or.inr ⟨x, by simp, hp, h⟩
      · exact Or.inl (by simp [h])
    · rw [updateFirst, if_neg hp] at hy
      rcases List.mem_cons.mp hy with h | h
      · exact Or.inl (by simp [h])
      · rcases ih y h with h2 | ⟨z, hz, hpz, hyz⟩
        · exact Or.inl (by simp [h2])
        · exact Or.inr ⟨z, by simp [hz], hpz, hyz⟩

/-- When some element satisfies `p`, the first such element appears updated
in `updateFirst p f l`. -/
theorem updateFirst_hit {α : Type} (p : α → Bool) (f : α → α) :
    ∀ l : List α, (∃ x ∈ l, p x = true) →
      ∃ x, x ∈ l ∧ p x = true ∧ f x ∈ updateFirst p f l := by
  intro l
  induction l with
  | nil => rintro ⟨x, hx, _⟩; simp at hx
  | cons x xs ih =>
    rintro ⟨z, hz, hpz⟩
    by_cases hp : p x = true
    · refine ⟨x, by simp, hp, ?_⟩
      rw [updateFirst, if_pos hp]
      simp
    · have hzx : z ∈ xs := by
        rcases List.mem_cons.mp hz with rfl | h
        · exact absurd hpz hp
        · exact h
      rcases ih ⟨z, hzx, hpz⟩ with ⟨y, hmem, hpy, hfy⟩
      refine ⟨y, by simp [hmem], hpy, ?_⟩
      rw [updateFirst, if_neg hp]
      exact List.mem_cons_of_mem x hfy

/-- `updateFirst` relates the old and new lists pointwise: every position
holds either the original element (when its key misses) or its update. -/
theorem updateFirst_forall2 {α : Type} (R : α → α → Prop) (p : α → Bool) (f : α → α)
    (hrefl : ∀ x, R x x) (hupd : ∀ x, p x = true → R x (f x)) :
    ∀ l : List α, List.Forall₂ R l (updateFirst p f l) := by
  intro l
  induction l with
  | nil => exact List.Forall₂.nil
  | cons x xs ih =>
    by_cases hp : p x = true
    · rw [updateFirst, if_pos hp]
      exact List.Forall₂.cons (hupd x hp) (List.forall₂_same.mpr (fun y _ => hrefl y))
    · rw [updateFirst, if_neg hp]
      exact List.Forall₂.cons (hrefl x) ih

/-- `updateFirst` leaves any projection the update preserves unchanged
across the whole list. -/
theorem updateFirst_map {α β : Type} (g : α → β) (p : α → Bool) (f : α → α)
    (hpf : ∀ x, g (f x) = g x) :
    ∀ l : List α, (updateFirst p f l).map g = l.map g := by
  intro l
  induction l with
  | nil => rfl
  | cons x xs ih =>
    by_cases hp : p x = true
    · rw [updateFirst, if_pos hp]
      simp [hpf]
    · rw [updateFirst, if_neg hp]
      simp [ih]

/-! ## C4: cascading delete -/

/-- C4.  In a graph containing objective `obj-1` linked to deliverable
`del-1` with relationship key `"obj-1:del-1"`, deleting `obj-1` leaves
`del-1` in the deliverables collection, removes `obj-1` from its
`linkedObjectives`, and removes the relationship key. -/
theorem cascading_delete (g : GraphData) (now v : String)
    (_hobj : ∃ o ∈ g.objectives, o.id = "obj-1")
    (hlink : ∃ d ∈ g.deliverables, d.id = "del-1" ∧ "obj-1" ∈ d.linkedObjectives)
    (_hrel : ("obj-1:del-1", v) ∈ g.relationships) :
    (∃ d ∈ (cosimoDelete g "obj-1" now).deliverables,
      d.id = "del-1" ∧ "obj-1" ∉ d.linkedObjectives)
    ∧ (∀ w, ("obj-1:del-1", w) ∉ (cosimoDelete g "obj-1" now).relationships) := by
  have hpre : jsStartsWith "obj-1" "obj-" = true := by decide
  rw [cosimoDelete, if_pos hpre]
  constructor
  · rcases hlink with ⟨d, hd, hid, _⟩
    refine ⟨{ d with linkedObjectives := d.linkedObjectives.filter (fun oid => oid != "obj-1") },
      List.mem_map_of_mem _ hd, by simpa using hid, ?_⟩
    intro hmem
    have h2 := (List.mem_filter.mp hmem).2
    simp at h2
  · intro w hmem
    have h2 := (List.mem_filter.mp hmem).2
    have h3 : jsStartsWith "obj-1:del-1" ("obj-1" ++ ":") = true := by decide
    rw [h3] at h2
    exact Bool.noConfusion h2

/-- A concrete objective linked to `del-1`. -/
def sampleObjective : Objective :=
  { id := "obj-1", title := "a", description := "", urgency := 50,
    deadline := "", impact := "medium", linkedDeliverables := ["del-1"] }

/-- A concrete deliverable linked to `obj-1`. -/
def sampleDeliverable : Deliverable :=
  { id := "del-1", title := "b", description := "", feasibility := 50,
    complexity := "medium", blockers := [], linkedObjectives := ["obj-1"],
    available_after := none, due_before := none }

/-- A concrete one-objective, one-deliverable, one-relationship graph. -/
def sampleLinkedGraph : GraphData :=
  { objectives := [sampleObjective],
    deliverables := [sampleDeliverable],
    relationships := [("obj-1:del-1", "bridge")],
    lastUpdated := none }

/-- C4 witness: the theorem applied to the concrete two-node graph. -/
theorem cascading_delete_witness :
    (∃ d ∈ (cosimoDelete sampleLinkedGraph "obj-1" "now").deliverables,
      d.id = "del-1" ∧ "obj-1" ∉ d.linkedObjectives)
    ∧ (∀ w, ("obj-1:del-1", w) ∉ (cosimoDelete sampleLinkedGraph "obj-1" "now").relationships) :=
  cascading_delete sampleLinkedGraph "now" "bridge"
    ⟨sampleObjective, by simp [sampleLinkedGraph], rfl⟩
    ⟨sampleDeliverable, by simp [sampleLinkedGraph], rfl, by simp [sampleDeliverable]⟩
    (by simp [sampleLinkedGraph])

/-! ## C5: falsy-but-defined score updates -/

/-- The update arguments setting `feasibility` to zero on `del-1`. -/
def zeroFeasArgs : UpdateDeliverableArgs :=
  { id := "del-1", title := none, description := none, feasibility := some 0,
    complexity := none, available_after := none, due_before := none }

/-- The update arguments setting `urgency` to zero on `obj-1`. -/
def zeroUrgArgs : UpdateObjectiveArgs :=
  { id := "obj-1", title := none, description := none, urgency := some 0,
    deadline := none, impact := none }

/-- C5.  A zero score supplied to an update is applied, not dropped: the
merge predicate for `feasibility` (and `urgency`) is `!== undefined`, not
truthiness. -/
theorem zero_score_update :
    (∀ (g : GraphData) (now : String), (∃ d ∈ g.deliverables, d.id = "del-1") →
      ∃ g', cosimoUpdateDeliverable g zeroFeasArgs now = Except.ok g'
        ∧ ∃ d' ∈ g'.deliverables, d'.id = "del-1" ∧ d'.feasibility = 0)
    ∧ (∀ (g : GraphData) (now : String), (∃ o ∈ g.objectives, o.id = "obj-1") →
      ∃ g', cosimoUpdateObjective g zeroUrgArgs now = Except.ok g'
        ∧ ∃ o' ∈ g'.objectives, o'.id = "obj-1" ∧ o'.urgency = 0) := by
  constructor
  · rintro g now ⟨d, hd, hid⟩
    have hfound : ∃ x ∈ g.deliverables, (fun d => d.id == zeroFeasArgs.id) x = true :=
      ⟨d, hd, by simp [hid, zeroFeasArgs]⟩
    rcases Option.isSome_iff_exists.mp (List.find?_isSome.mpr hfound) with ⟨y, hy⟩
    refine ⟨{ g with
        deliverables :=
          updateFirst (fun d => d.id == zeroFeasArgs.id) (mergeDeliverable zeroFeasArgs)
            g.deliverables
        lastUpdated := some now }, ?_, ?_⟩
    · rw [cosimoUpdateDeliverable, hy]
    · rcases updateFirst_hit (fun d => d.id == zeroFeasArgs.id) (mergeDeliverable zeroFeasArgs)
        g.deliverables hfound with ⟨x, hx, hpx, hfx⟩
      refine ⟨mergeDeliverable zeroFeasArgs x, hfx, ?_, rfl⟩
      simpa [mergeDeliverable, zeroFeasArgs] using (beq_iff_eq.mp hpx)
  · rintro g now ⟨o, ho, hid⟩
    have hfound : ∃ x ∈ g.objectives, (fun o => o.id == zeroUrgArgs.id) x = true :=
      ⟨o, ho, by simp [hid, zeroUrgArgs]⟩
    rcases Option.isSome_iff_exists.mp (List.find?_isSome.mpr hfound) with ⟨y, hy⟩
    refine ⟨{ g with
        objectives :=
          updateFirst (fun o => o.id == zeroUrgArgs.id) (mergeObjective zeroUrgArgs)
            g.objectives
        lastUpdated := some now }, ?_, ?_⟩
    · rw [cosimoUpdateObjective, hy]
    · rcases updateFirst_hit (fun o => o.id == zeroUrgArgs.id) (mergeObjective zeroUrgArgs)
        g.objectives hfound with ⟨x, hx, hpx, hfx⟩
      refine ⟨mergeObjective zeroUrgArgs x, hfx, ?_, rfl⟩
      simpa [mergeObjective, zeroUrgArgs] using (beq_iff_eq.mp hpx)

/-- C5 witness: both conjuncts applied to the concrete linked graph, whose
prior scores are nonzero. -/
theorem zero_score_update_witness :
    (∃ g', cosimoUpdateDeliverable sampleLinkedGraph zeroFeasArgs "now" = Except.ok g'
      ∧ ∃ d' ∈ g'.deliverables, d'.id = "del-1" ∧ d'.feasibility = 0)
    ∧ (∃ g', cosimoUpdateObjective sampleLinkedGraph zeroUrgArgs "now" = Except.ok g'
      ∧ ∃ o' ∈ g'.objectives, o'.id = "obj-1" ∧ o'.urgency = 0) :=
  ⟨zero_score_update.1 sampleLinkedGraph "now"
      ⟨sampleDeliverable, by simp [sampleLinkedGraph], rfl⟩,
    zero_score_update.2 sampleLinkedGraph "now"
      ⟨sampleObjective, by simp [sampleLinkedGraph], rfl⟩⟩

/-! ## Id allocation: `NaN` poisoning and the well-formed case -/

/-- `Math.max` with `NaN` on the right is `NaN`. -/
theorem jsMax_nan_right (a : JNum) : jsMax a JNum.nan = JNum.nan := by
  cases a <;> rfl

/-- `Math.max` with `NaN` on the left is `NaN`. -/
theorem jsMax_nan_left (a : JNum) : jsMax JNum.nan a = JNum.nan := by
  cases a <;> rfl

/-- A `NaN` anywhere in a `Math.max` fold poisons the result. -/
theorem foldl_jsMax_nan :
    ∀ (l : List JNum) (a : JNum), (a = JNum.nan ∨ JNum.nan ∈ l) →
      l.foldl jsMax a = JNum.nan := by
  intro l
  induction l with
  | nil =>
    intro a h
    rcases h with rfl | h
    · rfl
    · simp at h
  | cons x t ih =>
    intro a h
    rcases h with rfl | h
    · exact ih (jsMax JNum.nan x) (Or.inl (jsMax_nan_left x))
    · rcases List.mem_cons.mp h with rfl | hx
      · exact ih (jsMax a JNum.nan) (Or.inl (jsMax_nan_right a))
      · exact ih (jsMax a x) (Or.inr hx)

/-- A `Math.max` fold over integers starting from an integer is an integer
bounding the start and every element. -/
theorem foldl_jsMax_int :
    ∀ (l : List JNum) (a : Int), (∀ x ∈ l, ∃ n : Int, x = JNum.int n) →
      ∃ M : Int, l.foldl jsMax (JNum.int a) = JNum.int M ∧ a ≤ M ∧
        ∀ n : Int, JNum.int n ∈ l → n ≤ M := by
  intro l
  induction l with
  | nil =>
    intro a _
    exact ⟨a, rfl, le_refl a, by simp⟩
  | cons x t ih =>
    intro a hall
    rcases hall x (by simp) with ⟨b, rfl⟩
    rcases ih (max a b) (fun y hy => hall y (by simp [hy])) with ⟨M, hfold, hle, hbound⟩
    refine ⟨M, hfold, le_trans (le_max_left a b) hle, ?_⟩
    intro n hn
    rcases List.mem_cons.mp hn with heq | hmem
    · have : n = b := by injection heq
      subst this
      exact le_trans (le_max_right a n) hle
    · exact hbound n hmem

/-- `Math.max` over a list of parsed suffixes containing a `NaN` is `NaN`. -/
theorem allocMax_nan (ids : List String)
    (h : ∃ id ∈ ids, parseSuffix id = JNum.nan) : allocMax ids = JNum.nan := by
  rcases h with ⟨i, hi, hnan⟩
  cases ids with
  | nil => simp at hi
  | cons c cs =>
    rw [allocMax]
    simp only [List.isEmpty_cons, if_false, Bool.false_eq_true, List.map_cons]
    rw [jsMaxList]
    rcases List.mem_cons.mp hi with rfl | hmem
    · exact foldl_jsMax_nan _ _ (Or.inl hnan)
    · exact foldl_jsMax_nan _ _ (Or.inr (by
        rw [← hnan]
        exact List.mem_map_of_mem parseSuffix hmem))

/-- `Math.max` over all-numeric parsed suffixes is a nonnegative integer
bounding every suffix. -/
theorem allocMax_int (ids : List String) (hne : ids ≠ [])
    (h : ∀ id ∈ ids, ∃ n : Nat, parseSuffix id = JNum.int n) :
    ∃ M : Int, allocMax ids = JNum.int M ∧ 0 ≤ M ∧
      ∀ id ∈ ids, ∀ n : Int, parseSuffix id = JNum.int n → n ≤ M := by
  cases ids with
  | nil => exact absurd rfl hne
  | cons c cs =>
    rcases h c (by simp) with ⟨n0, hn0⟩
    have hall : ∀ x ∈ cs.map parseSuffix, ∃ n : Int, x = JNum.int n := by
      intro x hx
      rcases List.mem_map.mp hx with ⟨i, hi, rfl⟩
      rcases h i (by simp [hi]) with ⟨n, hn⟩
      exact ⟨n, hn⟩
    rcases foldl_jsMax_int (cs.map parseSuffix) n0 hall with ⟨M, hfold, hle, hbound⟩
    refine ⟨M, ?_, le_trans (by positivity) hle, ?_⟩
    · rw [allocMax]
      simp only [List.isEmpty_cons, if_false, Bool.false_eq_true, List.map_cons]
      rw [jsMaxList, hn0]
      exact hfold
    · intro i hi n hn
      rcases List.mem_cons.mp hi with rfl | hmem
      · have : JNum.int n = JNum.int (n0 : Int) := hn ▸ hn0 ▸ rfl
        have hnn : n = (n0 : Int) := by injection this
        omega
      · exact hbound n (by rw [← hn]; exact List.mem_map_of_mem parseSuffix hmem)

/-- The separator never occurs among printed digits, so `split` leaves the
digit block intact. -/
theorem jsSplit_no_sep (sep : Char) :
    ∀ l : List Char, (∀ c ∈ l, c ≠ sep) → jsSplit sep l = [l] := by
  intro l
  induction l with
  | nil => intro _; rfl
  | cons c cs ih =>
    intro h
    rw [jsSplit, if_neg (h c (by simp)), ih (fun x hx => h x (by simp [hx]))]

/-- Printed digits contain no dash. -/
theorem natDigits_no_dash (n : Nat) : ∀ c ∈ natDigits n, c ≠ '-' := by
  intro c hc
  rcases natDigits_digits n c hc with ⟨d, hd, rfl⟩
  exact (digitChar_not_special d hd).1

/-- The suffix parser recovers the numeral of a well-formed objective id. -/
theorem parseSuffix_objId (n : Nat) :
    parseSuffix ("obj-" ++ natString n) = JNum.int n := by
  rw [parseSuffix]
  have hdata : ("obj-" ++ natString n).data = 'o' :: 'b' :: 'j' :: '-' :: natDigits n := by
    rw [String.data_append]
    rfl
  rw [hdata]
  have hsplit : jsSplit '-' ('o' :: 'b' :: 'j' :: '-' :: natDigits n) =
      ['o', 'b', 'j'] :: jsSplit '-' (natDigits n) := by
    simp [jsSplit]
  rw [hsplit, jsSplit_no_sep '-' (natDigits n) (natDigits_no_dash n)]
  simp [parseIntChars_natDigits n]

/-- The suffix parser recovers the numeral of a well-formed deliverable id. -/
theorem parseSuffix_delId (n : Nat) :
    parseSuffix ("del-" ++ natString n) = JNum.int n := by
  rw [parseSuffix]
  have hdata : ("del-" ++ natString n).data = 'd' :: 'e' :: 'l' :: '-' :: natDigits n := by
    rw [String.data_append]
    rfl
  rw [hdata]
  have hsplit : jsSplit '-' ('d' :: 'e' :: 'l' :: '-' :: natDigits n) =
      ['d', 'e', 'l'] :: jsSplit '-' (natDigits n) := by
    simp [jsSplit]
  rw [hsplit, jsSplit_no_sep '-' (natDigits n) (natDigits_no_dash n)]
  simp [parseIntChars_natDigits n]

/-- An objective carrying a malformed id. -/
def malformedObjective : Objective :=
  { id := "obj-x", title := "c", description := "", urgency := 50,
    deadline := "", impact := "medium", linkedDeliverables := [] }

/-- A deliverable carrying a malformed id. -/
def malformedDeliverable : Deliverable :=
  { id := "del-x", title := "c", description := "", feasibility := 50,
    complexity := "medium", blockers := [], linkedObjectives := [],
    available_after := none, due_before := none }

/-- A graph whose second objective carries a malformed id. -/
def nanGraph : GraphData :=
  { objectives := [sampleObjective, malformedObjective],
    deliverables := [],
    relationships := [],
    lastUpdated := none }

/-- A graph whose second deliverable carries a malformed id. -/
def delNanGraph : GraphData :=
  { objectives := [],
    deliverables := [sampleDeliverable, malformedDeliverable],
    relationships := [],
    lastUpdated := none }

/-- Blank add-objective arguments. -/
def plainAddArgs : AddObjectiveArgs :=
  { title := "t", description := none, urgency := none, deadline := none, impact := none }

/-- Blank add-deliverable arguments. -/
def plainAddDelArgs : AddDeliverableArgs :=
  { title := "t", objectiveId := "obj-1", description := none, feasibility := none,
    complexity := none, relationship := none, available_after := none, due_before := none }

/-- C7 counterexample.  With `obj-1` and the malformed `obj-x` present,
`parseInt` yields `NaN`, `Math.max` propagates it, and the next allocated
objective id is the poisoned `"obj-NaN"` — not `"obj-2"`, which treating
the malformed suffix as 0 would give; symmetrically, with `del-1` and
`del-x` present the next deliverable id is `"del-NaN"`, not `"del-2"`. -/
theorem alloc_nan_cex :
    (((cosimoAddObjective nanGraph plainAddArgs "now").2).id = "obj-NaN" ∧
      "obj-NaN" ≠ "obj-2") ∧
    (((cosimoAddDeliverable delNanGraph plainAddDelArgs "now").2).id = "del-NaN" ∧
      "del-NaN" ≠ "del-2") :=
  ⟨⟨rfl, by decide⟩, ⟨rfl, by decide⟩⟩

/-- C7 amended.  In both allocators a malformed id does not contribute 0 to
the max: it turns the whole allocation into `"obj-NaN"` (resp. `"del-NaN"`).
Allocation is `max + 1` — and hence monotonic — only when every id of the
collection parses to a numeric suffix. -/
theorem alloc_suffix_behavior :
    (∀ (g : GraphData) (args : AddObjectiveArgs) (now : String),
      (∃ o ∈ g.objectives, parseSuffix o.id = JNum.nan) →
      ((cosimoAddObjective g args now).2).id = "obj-NaN")
    ∧ (∀ (g : GraphData) (args : AddObjectiveArgs) (now : String),
      g.objectives ≠ [] →
      (∀ o ∈ g.objectives, ∃ n : Nat, parseSuffix o.id = JNum.int n) →
      ∃ M : Int, 0 ≤ M ∧
        ((cosimoAddObjective g args now).2).id = "obj-" ++ natString (M + 1).toNat ∧
        ∀ o ∈ g.objectives, ∀ n : Int, parseSuffix o.id = JNum.int n → n ≤ M)
    ∧ (∀ (g : GraphData) (args : AddDeliverableArgs) (now : String),
      (∃ d ∈ g.deliverables, parseSuffix d.id = JNum.nan) →
      ((cosimoAddDeliverable g args now).2).id = "del-NaN")
    ∧ (∀ (g : GraphData) (args : AddDeliverableArgs) (now : String),
      g.deliverables ≠ [] →
      (∀ d ∈ g.deliverables, ∃ n : Nat, parseSuffix d.id = JNum.int n) →
      ∃ M : Int, 0 ≤ M ∧
        ((cosimoAddDeliverable g args now).2).id = "del-" ++ natString (M + 1).toNat ∧
        ∀ d ∈ g.deliverables, ∀ n : Int, parseSuffix d.id = JNum.int n → n ≤ M) := by
  refine ⟨?_, ?_, ?_, ?_⟩
  · intro g args now h
    rcases h with ⟨o, ho, hnan⟩
    have hmax : allocMax (g.objectives.map (fun o => o.id)) = JNum.nan :=
      allocMax_nan _ ⟨o.id, List.mem_map_of_mem _ ho, hnan⟩
    show "obj-" ++ jnumToString (jsAdd (allocMax (g.objectives.map (fun o => o.id)))
      (JNum.int 1)) = "obj-NaN"
    rw [hmax]
    decide
  · intro g args now hne hall
    have hne2 : g.objectives.map (fun o => o.id) ≠ [] := by
      simpa using hne
    have hall2 : ∀ id ∈ g.objectives.map (fun o => o.id), ∃ n : Nat,
        parseSuffix id = JNum.int n := by
      intro i hi
      rcases List.mem_map.mp hi with ⟨o, ho, rfl⟩
      exact hall o ho
    rcases allocMax_int _ hne2 hall2 with ⟨M, hM, hM0, hbound⟩
    refine ⟨M, hM0, ?_, ?_⟩
    · show "obj-" ++ jnumToString (jsAdd (allocMax (g.objectives.map (fun o => o.id)))
        (JNum.int 1)) = "obj-" ++ natString (M + 1).toNat
      rw [hM]
      show "obj-" ++ jnumToString (JNum.int (M + 1)) = "obj-" ++ natString (M + 1).toNat
      rw [jnumToString]
      rw [if_neg (by omega)]
    · intro o ho n hn
      exact hbound o.id (List.mem_map_of_mem _ ho) n hn
  · intro g args now h
    rcases h with ⟨d, hd, hnan⟩
    have hmax : allocMax (g.deliverables.map (fun d => d.id)) = JNum.nan :=
      allocMax_nan _ ⟨d.id, List.mem_map_of_mem _ hd, hnan⟩
    show "del-" ++ jnumToString (jsAdd (allocMax (g.deliverables.map (fun d => d.id)))
      (JNum.int 1)) = "del-NaN"
    rw [hmax]
    decide
  · intro g args now hne hall
    have hne2 : g.deliverables.map (fun d => d.id) ≠ [] := by
      simpa using hne
    have hall2 : ∀ id ∈ g.deliverables.map (fun d => d.id), ∃ n : Nat,
        parseSuffix id = JNum.int n := by
      intro i hi
      rcases List.mem_map.mp hi with ⟨d, hd, rfl⟩
      exact hall d hd
    rcases allocMax_int _ hne2 hall2 with ⟨M, hM, hM0, hbound⟩
    refine ⟨M, hM0, ?_, ?_⟩
    · show "del-" ++ jnumToString (jsAdd (allocMax (g.deliverables.map (fun d => d.id)))
        (JNum.int 1)) = "del-" ++ natString (M + 1).toNat
      rw [hM]
      show "del-" ++ jnumToString (JNum.int (M + 1)) = "del-" ++ natString (M + 1).toNat
      rw [jnumToString]
      rw [if_neg (by omega)]
    · intro d hd n hn
      exact hbound d.id (List.mem_map_of_mem _ hd) n hn

/-- C7 witness: the poisoned conjuncts at the concrete malformed graphs,
and the well-formed conjuncts at the one-objective, one-deliverable graph,
where the bounds are realised. -/
theorem alloc_suffix_behavior_witness :
    ((cosimoAddObjective nanGraph plainAddArgs "t").2).id = "obj-NaN" ∧
    ((cosimoAddDeliverable delNanGraph plainAddDelArgs "t").2).id = "del-NaN" ∧
    (∃ M : Int, 0 ≤ M ∧
      ((cosimoAddObjective sampleLinkedGraph plainAddArgs "t").2).id =
        "obj-" ++ natString (M + 1).toNat ∧
      ∀ o ∈ sampleLinkedGraph.objectives, ∀ n : Int,
        parseSuffix o.id = JNum.int n → n ≤ M) ∧
    (∃ M : Int, 0 ≤ M ∧
      ((cosimoAddDeliverable sampleLinkedGraph plainAddDelArgs "t").2).id =
        "del-" ++ natString (M + 1).toNat ∧
      ∀ d ∈ sampleLinkedGraph.deliverables, ∀ n : Int,
        parseSuffix d.id = JNum.int n → n ≤ M) :=
  ⟨alloc_suffix_behavior.1 nanGraph plainAddArgs "t"
      ⟨malformedObjective, by simp [nanGraph], by decide⟩,
    alloc_suffix_behavior.2.2.1 delNanGraph plainAddDelArgs "t"
      ⟨malformedDeliverable, by simp [delNanGraph], by decide⟩,
    alloc_suffix_behavior.2.1 sampleLinkedGraph plainAddArgs "t"
      (by simp [sampleLinkedGraph])
      (fun o ho => by
        simp only [sampleLinkedGraph, List.mem_singleton] at ho
        exact ⟨1, by rw [ho]; decide⟩),
    alloc_suffix_behavior.2.2.2 sampleLinkedGraph plainAddDelArgs "t"
      (by simp [sampleLinkedGraph])
      (fun d hd => by
        simp only [sampleLinkedGraph, List.mem_singleton] at hd
        exact ⟨1, by rw [hd]; decide⟩)⟩

/-! ## C9: the update operations are frame-preserving -/

/-- C9.  An update merges only its listed fields into its target: the
target's `id` and link arrays are never changed, entities with other ids
are untouched, the other collection and the relationship map are untouched. -/
theorem update_frame :
    (∀ (g : GraphData) (args : UpdateObjectiveArgs) (now : String) (g' : GraphData),
      cosimoUpdateObjective g args now = Except.ok g' →
      g'.deliverables = g.deliverables ∧ g'.relationships = g.relationships ∧
      List.Forall₂ (fun o o' : Objective =>
        o'.id = o.id ∧ o'.linkedDeliverables = o.linkedDeliverables ∧
          (o.id ≠ args.id → o' = o)) g.objectives g'.objectives)
    ∧ (∀ (g : GraphData) (args : UpdateDeliverableArgs) (now : String) (g' : GraphData),
      cosimoUpdateDeliverable g args now = Except.ok g' →
      g'.objectives = g.objectives ∧ g'.relationships = g.relationships ∧
      List.Forall₂ (fun d d' : Deliverable =>
        d'.id = d.id ∧ d'.blockers = d.blockers ∧ d'.linkedObjectives = d.linkedObjectives ∧
          (d.id ≠ args.id → d' = d)) g.deliverables g'.deliverables) := by
  constructor
  · intro g args now g' h
    rw [cosimoUpdateObjective] at h
    split at h
    · exact Except.noConfusion h
    · rw [← Except.ok.inj h]
      refine ⟨rfl, rfl, ?_⟩
      apply updateFirst_forall2
      · exact fun x => ⟨rfl, rfl, fun _ => rfl⟩
      · intro x hpx
        exact ⟨rfl, rfl, fun hne => absurd (beq_iff_eq.mp hpx) hne⟩
  · intro g args now g' h
    rw [cosimoUpdateDeliverable] at h
    split at h
    · exact Except.noConfusion h
    · rw [← Except.ok.inj h]
      refine ⟨rfl, rfl, ?_⟩
      apply updateFirst_forall2
      · exact fun x => ⟨rfl, rfl, rfl, fun _ => rfl⟩
      · intro x hpx
        exact ⟨rfl, rfl, rfl, fun hne => absurd (beq_iff_eq.mp hpx) hne⟩

/-- A retitling update of `obj-1`. -/
def retitleArgs : UpdateObjectiveArgs :=
  { id := "obj-1", title := some "t2", description := none, urgency := none,
    deadline := none, impact := none }

/-- The graph produced by applying `retitleArgs` to the sample graph. -/
def retitledGraph : GraphData :=
  match cosimoUpdateObjective sampleLinkedGraph retitleArgs "now" with
  | Except.ok g => g
  | Except.error _ => emptyGraph

/-- C9 witness: the objective conjunct applied to a concrete retitling of
the sample graph. -/
theorem update_frame_witness :
    retitledGraph.deliverables = sampleLinkedGraph.deliverables ∧
    retitledGraph.relationships = sampleLinkedGraph.relationships ∧
    List.Forall₂ (fun o o' : Objective =>
      o'.id = o.id ∧ o'.linkedDeliverables = o.linkedDeliverables ∧
        (o.id ≠ retitleArgs.id → o' = o)) sampleLinkedGraph.objectives retitledGraph.objectives :=
  update_frame.1 sampleLinkedGraph retitleArgs "now" retitledGraph rfl

/-! ## C3: id uniqueness across operation sequences, and id reuse -/

/-- The id discipline the add operations maintain: every id is its
collection's marker followed by a printed numeral, and ids are unique
within each collection. -/
def WellFormedIds (g : GraphData) : Prop :=
  (∀ o ∈ g.objectives, ∃ n : Nat, o.id = "obj-" ++ natString n) ∧
  (∀ d ∈ g.deliverables, ∃ n : Nat, d.id = "del-" ++ natString n) ∧
  (g.objectives.map (fun o => o.id)).Nodup ∧
  (g.deliverables.map (fun d => d.id)).Nodup

/-- Freshness of `max + 1` allocation: over well-formed ids the allocator
yields a well-formed id that is not already present. -/
theorem fresh_alloc (pfx : String)
    (hparse : ∀ n : Nat, parseSuffix (pfx ++ natString n) = JNum.int n)
    (ids : List String) (hwf : ∀ i ∈ ids, ∃ n : Nat, i = pfx ++ natString n) :
    ∃ n : Nat, pfx ++ jnumToString (jsAdd (allocMax ids) (JNum.int 1)) = pfx ++ natString n ∧
      pfx ++ natString n ∉ ids := by
  cases ids with
  | nil =>
    refine ⟨1, ?_, by simp⟩
    rw [show allocMax [] = JNum.int 0 from rfl]
    rw [show jsAdd (JNum.int 0) (JNum.int 1) = JNum.int 1 from rfl]
    rw [jnumToString, if_neg (by omega)]
    rfl
  | cons c cs =>
    have hall : ∀ i ∈ c :: cs, ∃ n : Nat, parseSuffix i = JNum.int n := by
      intro i hi
      rcases hwf i hi with ⟨n, rfl⟩
      exact ⟨n, hparse n⟩
    rcases allocMax_int (c :: cs) (by simp) hall with ⟨M, hM, hM0, hbound⟩
    refine ⟨(M + 1).toNat, ?_, ?_⟩
    · rw [hM]
      rw [show jsAdd (JNum.int M) (JNum.int 1) = JNum.int (M + 1) from rfl]
      rw [jnumToString, if_neg (by omega)]
    · intro hmem
      rcases hwf _ hmem with ⟨k, hk⟩
      have hk2 : (k : Int) ≤ M := hbound _ hmem k (by rw [hk, hparse])
      have hp1 : parseSuffix (pfx ++ natString (M + 1).toNat) = JNum.int ((M + 1).toNat) :=
        hparse _
      have hp2 : parseSuffix (pfx ++ natString (M + 1).toNat) = JNum.int k := by
        rw [hk] at hp1 ⊢
        rw [hparse]
      have : ((M + 1).toNat : Int) = (k : Int) := by
        rw [hp1] at hp2
        injection hp2
      omega

/-- One graph mutation preserves the id discipline. -/
theorem wf_execOp (g : GraphData) (op : GraphOp) (h : WellFormedIds g) :
    WellFormedIds (execOp g op) := by
  obtain ⟨hwo, hwd, hno, hnd⟩ := h
  cases op with
  | addObj a now =>
    have hwfm : ∀ i ∈ g.objectives.map (fun o => o.id), ∃ n : Nat,
        i = "obj-" ++ natString n := by
      intro i hi
      rcases List.mem_map.mp hi with ⟨o, ho, rfl⟩
      exact hwo o ho
    rcases fresh_alloc "obj-" parseSuffix_objId _ hwfm with ⟨n, hnew, hfresh⟩
    have hid : ((cosimoAddObjective g a now).2).id = "obj-" ++ natString n := hnew
    refine ⟨?_, hwd, ?_, hnd⟩
    · intro o ho
      rcases List.mem_append.mp ho with hmem | hmem
      · exact hwo o hmem
      · rcases List.mem_singleton.mp hmem with rfl
        exact ⟨n, hid⟩
    · show ((g.objectives ++ [(cosimoAddObjective g a now).2]).map (fun o => o.id)).Nodup
      rw [List.map_append, List.nodup_append]
      refine ⟨hno, by simp, ?_⟩
      intro x hx hx2
      simp only [List.map_cons, List.map_nil, List.mem_singleton] at hx2
      rw [hx2, hid] at hx
      exact hfresh hx
  | addDel a now =>
    have hwfm : ∀ i ∈ g.deliverables.map (fun d => d.id), ∃ n : Nat,
        i = "del-" ++ natString n := by
      intro i hi
      rcases List.mem_map.mp hi with ⟨d, hd, rfl⟩
      exact hwd d hd
    rcases fresh_alloc "del-" parseSuffix_delId _ hwfm with ⟨n, hnew, hfresh⟩
    have hid : ((cosimoAddDeliverable g a now).2).id = "del-" ++ natString n := hnew
    refine ⟨?_, ?_, ?_, ?_⟩
    · intro o ho
      rcases updateFirst_mem _ _ _ o ho with hmem | ⟨x, hx, _, rfl⟩
      · exact hwo o hmem
      · exact hwo x hx
    · intro d hd
      rcases List.mem_append.mp hd with hmem | hmem
      · exact hwd d hmem
      · rcases List.mem_singleton.mp hmem with rfl
        exact ⟨n, hid⟩
    · show ((updateFirst (fun o => o.id == a.objectiveId)
          (fun o => { o with linkedDeliverables :=
            o.linkedDeliverables ++ [((cosimoAddDeliverable g a now).2).id] })
          g.objectives).map (fun o => o.id)).Nodup
      rw [updateFirst_map]
      · exact hno
      · intro x
        rfl
    · show ((g.deliverables ++ [(cosimoAddDeliverable g a now).2]).map (fun d => d.id)).Nodup
      rw [List.map_append, List.nodup_append]
      refine ⟨hnd, by simp, ?_⟩
      intro x hx hx2
      simp only [List.map_cons, List.map_nil, List.mem_singleton] at hx2
      rw [hx2, hid] at hx
      exact hfresh hx
  | updObj a now =>
    show WellFormedIds (match cosimoUpdateObjective g a now with
      | Except.ok g1 => g1
      | Except.error _ => g)
    cases hres : cosimoUpdateObjective g a now with
    | error e => exact ⟨hwo, hwd, hno, hnd⟩
    | ok g1 =>
      rw [cosimoUpdateObjective] at hres
      split at hres
      · exact Except.noConfusion hres
      · rw [← Except.ok.inj hres]
        refine ⟨?_, hwd, ?_, hnd⟩
        · intro o ho
          rcases updateFirst_mem _ _ _ o ho with hmem | ⟨x, hx, _, rfl⟩
          · exact hwo o hmem
          · exact hwo x hx
        · show ((updateFirst (fun o => o.id == a.id) (mergeObjective a)
              g.objectives).map (fun o => o.id)).Nodup
          rw [updateFirst_map]
          · exact hno
          · intro x
            rfl
  | updDel a now =>
    show WellFormedIds (match cosimoUpdateDeliverable g a now with
      | Except.ok g1 => g1
      | Except.error _ => g)
    cases hres : cosimoUpdateDeliverable g a now with
    | error e => exact ⟨hwo, hwd, hno, hnd⟩
    | ok g1 =>
      rw [cosimoUpdateDeliverable] at hres
      split at hres
      · exact Except.noConfusion hres
      · rw [← Except.ok.inj hres]
        refine ⟨hwo, ?_, hno, ?_⟩
        · intro d hd
          rcases updateFirst_mem _ _ _ d hd with hmem | ⟨x, hx, _, rfl⟩
          · exact hwd d hmem
          · exact hwd x hx
        · show ((updateFirst (fun d => d.id == a.id) (mergeDeliverable a)
              g.deliverables).map (fun d => d.id)).Nodup
          rw [updateFirst_map]
          · exact hnd
          · intro x
            rfl
  | del i now =>
    rw [execOp, cosimoDelete]
    by_cases h1 : jsStartsWith i "obj-" = true
    · rw [if_pos h1]
      refine ⟨?_, ?_, ?_, ?_⟩
      · intro o ho
        exact hwo o (List.mem_filter.mp ho).1
      · intro d hd
        rcases List.mem_map.mp hd with ⟨x, hx, rfl⟩
        exact hwd x hx
      · exact List.Nodup.sublist (List.Sublist.map _ (List.filter_sublist _)) hno
      · rw [List.map_map]
        have hc : ((fun d : Deliverable => d.id) ∘
            (fun d : Deliverable =>
              { d with linkedObjectives := d.linkedObjectives.filter (fun oid => oid != i) })) =
            fun d : Deliverable => d.id := funext (fun d => rfl)
        rw [hc]
        exact hnd
    · rw [if_neg h1]
      by_cases h2 : jsStartsWith i "del-" = true
      · rw [if_pos h2]
        refine ⟨?_, ?_, ?_, ?_⟩
        · intro o ho
          rcases List.mem_map.mp ho with ⟨x, hx, rfl⟩
          exact hwo x hx
        · intro d hd
          exact hwd d (List.mem_filter.mp hd).1
        · rw [List.map_map]
          have hc : ((fun o : Objective => o.id) ∘
              (fun o : Objective =>
                { o with linkedDeliverables :=
                  o.linkedDeliverables.filter (fun did => did != i) })) =
              fun o : Objective => o.id := funext (fun o => rfl)
          rw [hc]
          exact hno
        · exact List.Nodup.sublist (List.Sublist.map _ (List.filter_sublist _)) hnd
      · rw [if_neg h2]
        exact ⟨hwo, hwd, hno, hnd⟩

/-- Every operation sequence preserves the id discipline. -/
theorem wf_execOps :
    ∀ (ops : List GraphOp) (g : GraphData), WellFormedIds g →
      WellFormedIds (execOps g ops) := by
  intro ops
  induction ops with
  | nil => intro g h; exact h
  | cons op rest ih =>
    intro g h
    show WellFormedIds ((op :: rest).foldl execOp g)
    rw [List.foldl_cons]
    exact ih (execOp g op) (wf_execOp g op h)

/-- C3 amended.  Starting from the empty graph, any sequence of add, update
and delete operations keeps objective ids unique within the objectives
collection and deliverable ids unique within the deliverables collection.
(The never-reused half of the original claim is refuted separately: the
`max + 1` allocator hands a deleted maximal id out again.) -/
theorem ids_unique (ops : List GraphOp) :
    ((execOps emptyGraph ops).objectives.map (fun o => o.id)).Nodup ∧
    ((execOps emptyGraph ops).deliverables.map (fun d => d.id)).Nodup :=
  ⟨(wf_execOps ops emptyGraph ⟨by simp [emptyGraph], by simp [emptyGraph],
      by simp [emptyGraph], by simp [emptyGraph]⟩).2.2.1,
    (wf_execOps ops emptyGraph ⟨by simp [emptyGraph], by simp [emptyGraph],
      by simp [emptyGraph], by simp [emptyGraph]⟩).2.2.2⟩

/-- C3 counterexample.  The id `obj-1` is allocated, deleted, and then
allocated again by the next add: deleted ids are reused. -/
theorem id_reuse_cex :
    ("obj-1" ∈ (execOps emptyGraph
      [GraphOp.addObj plainAddArgs "t1"]).objectives.map (fun o => o.id)) ∧
    ("obj-1" ∉ (execOps emptyGraph
      [GraphOp.addObj plainAddArgs "t1",
        GraphOp.del "obj-1" "t2"]).objectives.map (fun o => o.id)) ∧
    ("obj-1" ∈ (execOps emptyGraph
      [GraphOp.addObj plainAddArgs "t1", GraphOp.del "obj-1" "t2",
        GraphOp.addObj plainAddArgs "t3"]).objectives.map (fun o => o.id)) := by
  refine ⟨?_, ?_, ?_⟩ <;> decide

end Cosimo
